import Mathlib

/-!
# The observer registry of `observable.c`

A shallow embedding of the registry functions of `src/src/observable.c`
(`AK_register_observer`, `AK_unregister_observer`, `AK_notify_observer`,
`AK_notify_observers`, `AK_get_observer_by_id`, `AK_init_observable`,
`AK_destroy_observer`, `AK_notify`) together with the properties proved about
them.

Modelling conventions.

* A pointer is a natural number, `NULL` is address `0`.
* Observer records live in a heap `Ptr → Option AK_observer`; `none` means that
  no live observer is allocated at that address.  Reading or writing through a
  null or dangling pointer, freeing a dangling pointer and calling a null
  function pointer are undefined behaviour in C: the embedded function then
  returns `none`.
* Every function is a state transformer on a `World` (heap, the observable
  `self`, and the log of event-handler invocations) and returns
  `Option (result × World)`.
* Each `for (i = 0; i < MAX_OBSERVABLE_OBSERVERS; ++i)` loop is a function
  `loop` of the number of iterations still to run and the index `i`; it is
  started with `MAX_OBSERVABLE_OBSERVERS` iterations at index `0`.
* An event handler is an opaque function pointer.  Calling it appends a `Call`
  to the log; handlers are assumed not to re-enter the registry, so the call
  changes nothing else.
* The function-pointer fields that `AK_init_observable` / `AK_init_observer`
  set to the static functions of `observable.c` (`self->AK_register_observer`,
  `observer->AK_notify`, ...) are not stored: a call through such a field is a
  call of the function it was initialised with.
-/

namespace Observable

/-- A C pointer value (data or function pointer). -/
abbrev Ptr := Nat

/-- The null pointer. -/
abbrev NULL : Ptr := 0

/-- Modelled from the spec: the status macros `OK` and `NOT_OK` are defined in
the header `observable.h`, which is not part of the sources.  The spec only
distinguishes success from failure (`CapacityExceeded`, `NotFound`,
`AlreadyReleased`), so the two macros are two distinct values. -/
inductive Status where
  | OK
  | NOT_OK
deriving DecidableEq, Repr

/-- Modelled from the spec: the enumeration `AK_ObservableType_Enum` is declared
in the absent header `observable.h`.  The spec gives it four variants, two for
the transactional and trigger domains and two for custom use; `main.c` switches
over exactly these four constants. -/
inductive AK_ObservableType_Enum where
  | AK_TRANSACTION
  | AK_TRIGGER
  | AK_CUSTOM_FIRST
  | AK_CUSTOM_SECOND
deriving DecidableEq, Repr

/-- Modelled from the spec: `struct AK_observer` is declared in the absent
header `observable.h`; these are the data fields `observable.c` reads and
writes.  `observer_id` is the ObserverId of the spec, an integer that is only
ever incremented, modelled without a width.  `AK_observer_type` is the opaque
context pointer and `AK_observer_type_event_handler` the handler function
pointer. -/
structure AK_observer where
  observer_id : Int
  AK_observer_type : Ptr
  AK_observer_type_event_handler : Ptr
deriving DecidableEq, Repr

/-- Modelled from the spec: `struct AK_observable` is declared in the absent
header `observable.h`; these are the data fields `observable.c` reads and
writes.  `observers` is the array `observers[MAX_OBSERVABLE_OBSERVERS]` (a slot
holding `NULL` is empty), `observer_id_counter` the next id to assign,
`AK_observable_type` the subject context, `AK_ObservableType_Def` the kind and
`AK_run_custom_action` the custom-action function pointer. -/
structure AK_observable where
  observers : List Ptr
  observer_id_counter : Int
  AK_observable_type : Ptr
  AK_ObservableType_Def : AK_ObservableType_Enum
  AK_run_custom_action : Ptr
deriving DecidableEq, Repr

/-- Modelled from the spec: the capacity macro `MAX_OBSERVABLE_OBSERVERS` is
defined in the absent header `observable.h` (reference value 10).  It is the
declared length of the array `observers`, so it is read off the array. -/
def MAX_OBSERVABLE_OBSERVERS (self : AK_observable) : Nat :=
  self.observers.length

/-- The array read `self->observers[i]`. -/
def slot (self : AK_observable) (i : Nat) : Ptr :=
  self.observers.getD i NULL

/-- One invocation
`handler(observer->AK_observer_type, observable_type, type)` of an event
handler, as made by `AK_notify`. -/
structure Call where
  handler : Ptr
  observer_type : Ptr
  observable_type : Ptr
  type : AK_ObservableType_Enum
deriving DecidableEq, Repr

/-- The observer objects that are currently allocated. -/
abbrev Heap := Ptr → Option AK_observer

/-- The program state: the heap of observers, the observable `self` and the
log of event-handler invocations made so far. -/
structure World where
  heap : Heap
  self : AK_observable
  calls : List Call

/-- Reading `*p`: defined only for a non-null pointer to a live observer. -/
def load (heap : Heap) (p : Ptr) : Option AK_observer :=
  if p = NULL then none else heap p

/-- Writing `*p = rec`. -/
def store (heap : Heap) (p : Ptr) (rec : AK_observer) : Heap :=
  fun q => if q = p then some rec else heap q

/-- The library call `free(p)`: a no-op on `NULL`, releases a live object, and is
undefined on a pointer that is not live (double free). -/
def free (heap : Heap) (p : Ptr) : Option Heap :=
  if p = NULL then some heap
  else
    match heap p with
    | none => none
    | some _ => some (fun q => if q = p then none else heap q)

/-- The loop of `AK_register_observer`, with `n` iterations left at index `i`. -/
def AK_register_observer.loop (w : World) (observer : Ptr) :
    Nat → Nat → Option (Status × World)
  | 0, _ => some (Status.NOT_OK, w)
  | n + 1, i =>
    if slot w.self i = NULL then
      match load w.heap observer with
      | none => none
      | some rec =>
        some (Status.OK,
          { w with
            heap := store w.heap observer
              { rec with observer_id := w.self.observer_id_counter }
            self :=
              { w.self with
                observer_id_counter := w.self.observer_id_counter + 1
                observers := w.self.observers.set i observer } })
    else AK_register_observer.loop w observer n (i + 1)

/-- The function `AK_register_observer(self, observer)` of `observable.c`:
the first empty slot receives `observer`, whose `observer_id` becomes
`self->observer_id_counter++`. -/
def AK_register_observer (w : World) (observer : Ptr) : Option (Status × World) :=
  AK_register_observer.loop w observer (MAX_OBSERVABLE_OBSERVERS w.self) 0

/-- The loop of `AK_unregister_observer`, with `n` iterations left at index `i`. -/
def AK_unregister_observer.loop (w : World) (observer : Ptr) :
    Nat → Nat → Option (Status × World)
  | 0, _ => some (Status.NOT_OK, w)
  | n + 1, i =>
    if observer = slot w.self i then
      match free w.heap (slot w.self i) with
      | none => none
      | some heap =>
        some (Status.OK,
          { w with
            heap := heap
            self := { w.self with observers := w.self.observers.set i NULL } })
    else AK_unregister_observer.loop w observer n (i + 1)

/-- The function `AK_unregister_observer(self, observer)` of `observable.c`:
the first slot equal to `observer` is freed and set to `NULL`. -/
def AK_unregister_observer (w : World) (observer : Ptr) : Option (Status × World) :=
  AK_unregister_observer.loop w observer (MAX_OBSERVABLE_OBSERVERS w.self) 0

/-- The function `AK_notify(observer, observable_type, type)` of `observable.c`:
calls the observer's event handler on the observer's context. -/
def AK_notify (w : World) (observer : Ptr) (observable_type : Ptr)
    (type : AK_ObservableType_Enum) : Option (Status × World) :=
  match load w.heap observer with
  | none => none
  | some rec =>
    if rec.AK_observer_type_event_handler = NULL then none
    else
      some (Status.OK,
        { w with
          calls := w.calls ++
            [{ handler := rec.AK_observer_type_event_handler
               observer_type := rec.AK_observer_type
               observable_type := observable_type
               type := type }] })

/-- The loop of `AK_notify_observer`, with `n` iterations left at index `i`. -/
def AK_notify_observer.loop (w : World) (observer : Ptr) :
    Nat → Nat → Option (Status × World)
  | 0, _ => some (Status.NOT_OK, w)
  | n + 1, i =>
    if slot w.self i ≠ NULL ∧ slot w.self i = observer then
      match AK_notify w observer w.self.AK_observable_type w.self.AK_ObservableType_Def with
      | none => none
      | some (_, w') => some (Status.OK, w')
    else AK_notify_observer.loop w observer n (i + 1)

/-- The function `AK_notify_observer(self, observer)` of `observable.c`. -/
def AK_notify_observer (w : World) (observer : Ptr) : Option (Status × World) :=
  AK_notify_observer.loop w observer (MAX_OBSERVABLE_OBSERVERS w.self) 0

/-- The loop of `AK_notify_observers`, with `n` iterations left at index `i`;
the world is a loop variable because every call is logged. -/
def AK_notify_observers.loop : Nat → Nat → World → Option (Status × World)
  | 0, _, w => some (Status.OK, w)
  | n + 1, i, w =>
    if slot w.self i ≠ NULL then
      match AK_notify w (slot w.self i) w.self.AK_observable_type
          w.self.AK_ObservableType_Def with
      | none => none
      | some (_, w') => AK_notify_observers.loop n (i + 1) w'
    else AK_notify_observers.loop n (i + 1) w

/-- The function `AK_notify_observers(self)` of `observable.c`. -/
def AK_notify_observers (w : World) : Option (Status × World) :=
  AK_notify_observers.loop (MAX_OBSERVABLE_OBSERVERS w.self) 0 w

/-- The loop of `AK_get_observer_by_id`, with `n` iterations left at index `i`. -/
def AK_get_observer_by_id.loop (w : World) (id : Int) :
    Nat → Nat → Option (Ptr × World)
  | 0, _ => some (NULL, w)
  | n + 1, i =>
    if slot w.self i ≠ NULL then
      match load w.heap (slot w.self i) with
      | none => none
      | some rec =>
        if rec.observer_id = id then some (slot w.self i, w)
        else AK_get_observer_by_id.loop w id n (i + 1)
    else AK_get_observer_by_id.loop w id n (i + 1)

/-- The function `AK_get_observer_by_id(self, id)` of `observable.c`. -/
def AK_get_observer_by_id (w : World) (id : Int) : Option (Ptr × World) :=
  AK_get_observer_by_id.loop w id (MAX_OBSERVABLE_OBSERVERS w.self) 0

/-- The function `AK_init_observable` of `observable.c`, for an array of
`max` slots: every slot is `NULL` and the counter is 1.  The allocation of the
observable itself is assumed to succeed. -/
def AK_init_observable (max : Nat) (AK_observable_type : Ptr)
    (AK_ObservableType_Def : AK_ObservableType_Enum) (AK_custom_action : Ptr) :
    AK_observable :=
  { observers := List.replicate max NULL
    observer_id_counter := 1
    AK_observable_type := AK_observable_type
    AK_ObservableType_Def := AK_ObservableType_Def
    AK_run_custom_action := AK_custom_action }

/-- The function `AK_destroy_observer(self)` of `observable.c`; the assignment
`self = NULL` only changes the local parameter. -/
def AK_destroy_observer (heap : Heap) (self : Ptr) : Option (Status × Heap) :=
  if self ≠ NULL then
    match free heap self with
    | none => none
    | some heap' => some (Status.OK, heap')
  else some (Status.NOT_OK, heap)

/-- A world holding a freshly constructed observable and an empty call log. -/
def freshWorld (heap : Heap) (max : Nat) (AK_observable_type : Ptr)
    (AK_ObservableType_Def : AK_ObservableType_Enum) (AK_custom_action : Ptr) : World :=
  { heap := heap
    self := AK_init_observable max AK_observable_type AK_ObservableType_Def AK_custom_action
    calls := [] }

/-- The index at which a loop `for (i = i0; i < i0 + n; ++i) if (p i) return ...`
leaves early, if it does: the proof-side description of the early-return loops. -/
def firstIndex (p : Nat → Bool) : Nat → Nat → Option Nat
  | 0, _ => none
  | n + 1, i => if p i then some i else firstIndex p n (i + 1)

/-- A scenario: the observers of `os` are registered one after the other; for
every call the status and the `observer_id` read back from the observer right
after the call are recorded. -/
def registerAll : World → List Ptr → Option (List (Status × Int) × World)
  | w, [] => some ([], w)
  | w, o :: os =>
    match AK_register_observer w o with
    | none => none
    | some (st, w1) =>
      match load w1.heap o with
      | none => none
      | some rec =>
        match registerAll w1 os with
        | none => none
        | some (rs, w2) => some ((st, rec.observer_id) :: rs, w2)

/-- A sample heap: three live observers at addresses 1, 2 and 3, with contexts
101, 102, 103 and the event handler at address 7; nothing else is allocated. -/
def demoHeap : Heap := fun p =>
  if p = 1 ∨ p = 2 ∨ p = 3 then
    some { observer_id := 0, AK_observer_type := 100 + p, AK_observer_type_event_handler := 7 }
  else none

/-- A sample world: a fresh observable with two slots, subject context 50 and
kind `AK_CUSTOM_FIRST`, over `demoHeap`. -/
def demoWorld : World :=
  freshWorld demoHeap 2 50 AK_ObservableType_Enum.AK_CUSTOM_FIRST 60

/-- The sample world after observers 1 and 2 were registered: both slots are
occupied. -/
def demoFull : World :=
  { heap := store (store demoHeap 1 { observer_id := 1, AK_observer_type := 101,
                                       AK_observer_type_event_handler := 7 })
              2 { observer_id := 2, AK_observer_type := 102,
                  AK_observer_type_event_handler := 7 }
    self :=
      { observers := [1, 2]
        observer_id_counter := 3
        AK_observable_type := 50
        AK_ObservableType_Def := AK_ObservableType_Enum.AK_CUSTOM_FIRST
        AK_run_custom_action := 60 }
    calls := [] }

/-- The slots that hold an observer, in ascending index order. -/
def occupied (self : AK_observable) : List Ptr :=
  self.observers.filter (fun p => decide (p ≠ NULL))

/-- The handler invocation that `AK_notify` makes for observer `p` in world `w`:
the observer's handler on the observer's context, the subject context and the
kind of the observable; `none` when `p` is not a live observer. -/
def callOf (w : World) (p : Ptr) : Option Call :=
  (load w.heap p).map fun rec =>
    { handler := rec.AK_observer_type_event_handler
      observer_type := rec.AK_observer_type
      observable_type := w.self.AK_observable_type
      type := w.self.AK_ObservableType_Def }

/-- The part of an observer record that registration never writes. -/
def handlerAndContext (rec : AK_observer) : Ptr × Ptr :=
  (rec.AK_observer_type_event_handler, rec.AK_observer_type)

/-- The states reachable from a freshly constructed observable by calls of
`AK_register_observer` and `AK_unregister_observer` that return. -/
inductive Reachable : World → Prop
  | init (heap : Heap) (max : Nat) (t : Ptr) (d : AK_ObservableType_Enum) (a : Ptr) :
      Reachable (freshWorld heap max t d a)
  | register (w : World) (o : Ptr) (st : Status) (w' : World) :
      Reachable w → AK_register_observer w o = some (st, w') → Reachable w'
  | unregister (w : World) (o : Ptr) (st : Status) (w' : World) :
      Reachable w → AK_unregister_observer w o = some (st, w') → Reachable w'

/-- The states reachable as in `Reachable`, where in addition no handle is
registered while it already is in a slot. -/
inductive ReachableNoDup : World → Prop
  | init (heap : Heap) (max : Nat) (t : Ptr) (d : AK_ObservableType_Enum) (a : Ptr) :
      ReachableNoDup (freshWorld heap max t d a)
  | register (w : World) (o : Ptr) (st : Status) (w' : World) :
      ReachableNoDup w →
      (∀ i, i < MAX_OBSERVABLE_OBSERVERS w.self → slot w.self i ≠ o) →
      AK_register_observer w o = some (st, w') → ReachableNoDup w'
  | unregister (w : World) (o : Ptr) (st : Status) (w' : World) :
      ReachableNoDup w → AK_unregister_observer w o = some (st, w') → ReachableNoDup w'

/-- The registry invariant kept when no handle is registered twice: every
occupied slot holds a live observer whose id is at least 1 and below the
counter, no observer is in two slots, and observers in different slots have
different ids. -/
structure RegistryInv (w : World) : Prop where
  counter_pos : 1 ≤ w.self.observer_id_counter
  live : ∀ i, i < MAX_OBSERVABLE_OBSERVERS w.self → slot w.self i ≠ NULL →
    ∃ rec, load w.heap (slot w.self i) = some rec ∧
      1 ≤ rec.observer_id ∧ rec.observer_id < w.self.observer_id_counter
  slots_distinct : ∀ i j, i < MAX_OBSERVABLE_OBSERVERS w.self →
    j < MAX_OBSERVABLE_OBSERVERS w.self → slot w.self i ≠ NULL →
    slot w.self i = slot w.self j → i = j
  ids_distinct : ∀ i j ri rj, i < MAX_OBSERVABLE_OBSERVERS w.self →
    j < MAX_OBSERVABLE_OBSERVERS w.self →
    slot w.self i ≠ NULL → slot w.self j ≠ NULL →
    load w.heap (slot w.self i) = some ri → load w.heap (slot w.self j) = some rj →
    ri.observer_id = rj.observer_id → i = j

/-- The test `self->observers[j] != NULL && self->observers[j]->observer_id == id`
of `AK_get_observer_by_id`, for a slot that is empty or holds a live observer. -/
def idMatches (w : World) (id : Int) (j : Nat) : Bool :=
  decide (slot w.self j ≠ NULL) &&
    match load w.heap (slot w.self j) with
    | none => false
    | some rec => decide (rec.observer_id = id)

/-- One call on the observable: the five operations a client can make. -/
inductive Op where
  | register (observer : Ptr)
  | unregister (observer : Ptr)
  | notify_observer (observer : Ptr)
  | notify_observers
  | get_observer_by_id (id : Int)
deriving DecidableEq, Repr

/-- Executes one call.  Besides the new world it reports the id handed out:
`some id` for a registration that returned `OK` (the `observer_id` read back
from the observer right after the call), `none` for every other call. -/
def execOp (w : World) : Op → Option (Option Int × World)
  | Op.register o =>
    match AK_register_observer w o with
    | none => none
    | some (Status.OK, w') =>
      match load w'.heap o with
      | none => none
      | some rec => some (some rec.observer_id, w')
    | some (Status.NOT_OK, w') => some (none, w')
  | Op.unregister o =>
    match AK_unregister_observer w o with
    | none => none
    | some (_, w') => some (none, w')
  | Op.notify_observer o =>
    match AK_notify_observer w o with
    | none => none
    | some (_, w') => some (none, w')
  | Op.notify_observers =>
    match AK_notify_observers w with
    | none => none
    | some (_, w') => some (none, w')
  | Op.get_observer_by_id id =>
    match AK_get_observer_by_id w id with
    | none => none
    | some (_, w') => some (none, w')

/-- Executes a sequence of calls and collects, in order, the ids handed out by
the registrations that returned `OK`. -/
def runOps : World → List Op → Option (List Int × World)
  | w, [] => some ([], w)
  | w, op :: ops =>
    match execOp w op with
    | none => none
    | some (r, w1) =>
      match runOps w1 ops with
      | none => none
      | some (ids, w2) => some (r.toList ++ ids, w2)

/-- The id invariant of every reachable state, duplicate registrations
included: the counter is at least 1, every live observer stored in a slot has an
id from 1 up to the counter (exclusive), and stored observers with the same id
are the same observer. -/
structure IdInv (w : World) : Prop where
  counter_pos : 1 ≤ w.self.observer_id_counter
  id_range : ∀ i rec, i < MAX_OBSERVABLE_OBSERVERS w.self →
    load w.heap (slot w.self i) = some rec →
    1 ≤ rec.observer_id ∧ rec.observer_id < w.self.observer_id_counter
  id_inj : ∀ i j ri rj, i < MAX_OBSERVABLE_OBSERVERS w.self →
    j < MAX_OBSERVABLE_OBSERVERS w.self →
    load w.heap (slot w.self i) = some ri → load w.heap (slot w.self j) = some rj →
    ri.observer_id = rj.observer_id → slot w.self i = slot w.self j

/-! ## The loop index -/

theorem firstIndex_some {p : Nat → Bool} :
    ∀ {n i k : Nat}, firstIndex p n i = some k →
      i ≤ k ∧ k < i + n ∧ p k = true ∧ ∀ j, i ≤ j → j < k → p j = false := by
  intro n
  induction n with
  | zero => intro i k h; simp [firstIndex] at h
  | succ n ih =>
    intro i k h
    unfold firstIndex at h
    by_cases hp : p i = true
    · rw [if_pos hp] at h
      obtain rfl : i = k := by simpa using h
      refine ⟨le_refl _, by omega, hp, ?_⟩
      intro j h1 h2
      omega
    · rw [if_neg hp] at h
      obtain ⟨h1, h2, h3, h4⟩ := ih h
      refine ⟨by omega, by omega, h3, ?_⟩
      intro j hj1 hj2
      by_cases hji : j = i
      · subst hji
        simpa using hp
      · exact h4 j (by omega) hj2

theorem firstIndex_none {p : Nat → Bool} :
    ∀ {n i : Nat}, firstIndex p n i = none →
      ∀ j, i ≤ j → j < i + n → p j = false := by
  intro n
  induction n with
  | zero => intro i _ j h1 h2; omega
  | succ n ih =>
    intro i h j h1 h2
    unfold firstIndex at h
    by_cases hp : p i = true
    · rw [if_pos hp] at h
      simp at h
    · rw [if_neg hp] at h
      by_cases hji : j = i
      · subst hji
        simpa using hp
      · exact ih h j (by omega) (by omega)

theorem firstIndex_of_all_false {p : Nat → Bool} {n i : Nat}
    (h : ∀ j, i ≤ j → j < i + n → p j = false) : firstIndex p n i = none := by
  cases hf : firstIndex p n i with
  | none => rfl
  | some k =>
    obtain ⟨h1, h2, h3, _⟩ := firstIndex_some hf
    rw [h k h1 h2] at h3
    simp at h3

theorem firstIndex_of_exists {p : Nat → Bool} {n i j : Nat}
    (h1 : i ≤ j) (h2 : j < i + n) (h3 : p j = true) :
    ∃ k, firstIndex p n i = some k := by
  cases hf : firstIndex p n i with
  | some k => exact ⟨k, rfl⟩
  | none =>
    rw [firstIndex_none hf j h1 h2] at h3
    simp at h3

/-! ## Array reads and writes -/

theorem slot_set (self self' : AK_observable) (i : Nat) (p : Ptr)
    (hobs : self'.observers = self.observers.set i p) (j : Nat) :
    slot self' j = if j = i ∧ i < self.observers.length then p else slot self j := by
  simp only [slot, hobs, List.getD_eq_getElem?_getD, List.getElem?_set]
  by_cases hji : i = j
  · subst hji
    by_cases hlt : i < self.observers.length
    · simp [hlt]
    · simp [hlt, List.getElem?_eq_none (not_lt.mp hlt)]
  · have : ¬ j = i := fun h => hji h.symm
    simp [hji, this]

/-! ## `AK_register_observer` -/

theorem register_loop_eq (w : World) (observer : Ptr) :
    ∀ n i, AK_register_observer.loop w observer n i =
      match firstIndex (fun j => decide (slot w.self j = NULL)) n i with
      | none => some (Status.NOT_OK, w)
      | some k =>
        match load w.heap observer with
        | none => none
        | some rec =>
          some (Status.OK,
            { w with
              heap := store w.heap observer
                { rec with observer_id := w.self.observer_id_counter }
              self :=
                { w.self with
                  observer_id_counter := w.self.observer_id_counter + 1
                  observers := w.self.observers.set k observer } }) := by
  intro n
  induction n with
  | zero => intro i; simp [AK_register_observer.loop, firstIndex]
  | succ n ih =>
    intro i
    unfold AK_register_observer.loop firstIndex
    by_cases h : slot w.self i = NULL
    · simp [h]
    · simp [h, ih]

theorem load_store_same (heap : Heap) (p : Ptr) (r rec : AK_observer)
    (h : load heap p = some r) : load (store heap p rec) p = some rec := by
  unfold load store at *
  by_cases hp : p = NULL
  · simp [hp] at h
  · simp [hp]

/-- Claim C1. In every state with at least one empty slot, registering a live
observer `o` returns `OK`, puts `o` in the lowest-index empty slot `i`, sets
`o->observer_id` to the counter value before the call, increases the counter by
exactly 1, and changes no other slot, no other observer and no other field. -/
theorem register_stores_in_first_empty_slot (w : World) (o : Ptr) (rec : AK_observer)
    (hlive : load w.heap o = some rec)
    (hempty : ∃ i, i < MAX_OBSERVABLE_OBSERVERS w.self ∧ slot w.self i = NULL) :
    ∃ i w', AK_register_observer w o = some (Status.OK, w') ∧
      i < MAX_OBSERVABLE_OBSERVERS w.self ∧
      slot w.self i = NULL ∧
      (∀ j, j < i → slot w.self j ≠ NULL) ∧
      slot w'.self i = o ∧
      (∀ j, j ≠ i → slot w'.self j = slot w.self j) ∧
      MAX_OBSERVABLE_OBSERVERS w'.self = MAX_OBSERVABLE_OBSERVERS w.self ∧
      load w'.heap o = some { rec with observer_id := w.self.observer_id_counter } ∧
      (∀ p, p ≠ o → w'.heap p = w.heap p) ∧
      w'.self.observer_id_counter = w.self.observer_id_counter + 1 ∧
      w'.self.AK_observable_type = w.self.AK_observable_type ∧
      w'.self.AK_ObservableType_Def = w.self.AK_ObservableType_Def ∧
      w'.self.AK_run_custom_action = w.self.AK_run_custom_action ∧
      w'.calls = w.calls := by
  obtain ⟨i0, hi0, hs0⟩ := hempty
  obtain ⟨k, hk⟩ := firstIndex_of_exists (p := fun j => decide (slot w.self j = NULL))
    (n := MAX_OBSERVABLE_OBSERVERS w.self) (Nat.zero_le i0) (by omega) (by simpa using hs0)
  obtain ⟨_, hk2, hk3, hk4⟩ := firstIndex_some hk
  have hklt : k < w.self.observers.length := by
    simpa [MAX_OBSERVABLE_OBSERVERS] using hk2
  refine ⟨k,
    { w with
      heap := store w.heap o { rec with observer_id := w.self.observer_id_counter }
      self :=
        { w.self with
          observer_id_counter := w.self.observer_id_counter + 1
          observers := w.self.observers.set k o } },
    ?_, by omega, by simpa using hk3, ?_, ?_, ?_, ?_, ?_, ?_, rfl, rfl, rfl, rfl, rfl⟩
  · rw [AK_register_observer, register_loop_eq, hk, hlive]
  · intro j hj
    simpa using hk4 j (Nat.zero_le j) hj
  · rw [slot_set w.self _ k o rfl k]
    simp [hklt]
  · intro j hj
    rw [slot_set w.self _ k o rfl j]
    simp [hj]
  · simp [MAX_OBSERVABLE_OBSERVERS]
  · exact load_store_same _ _ _ _ hlive
  · intro p hp
    simp [store, hp]

theorem register_stores_in_first_empty_slot_witness :
    load demoWorld.heap 1 =
        some { observer_id := 0, AK_observer_type := 101,
               AK_observer_type_event_handler := 7 } ∧
      (∃ i, i < MAX_OBSERVABLE_OBSERVERS demoWorld.self ∧ slot demoWorld.self i = NULL) ∧
      ∃ i w', AK_register_observer demoWorld 1 = some (Status.OK, w') ∧
        i < MAX_OBSERVABLE_OBSERVERS demoWorld.self ∧
        slot demoWorld.self i = NULL ∧
        (∀ j, j < i → slot demoWorld.self j ≠ NULL) ∧
        slot w'.self i = 1 ∧
        (∀ j, j ≠ i → slot w'.self j = slot demoWorld.self j) ∧
        MAX_OBSERVABLE_OBSERVERS w'.self = MAX_OBSERVABLE_OBSERVERS demoWorld.self ∧
        load w'.heap 1 =
          some { ({ observer_id := 0, AK_observer_type := 101,
                    AK_observer_type_event_handler := 7 } : AK_observer) with
                 observer_id := demoWorld.self.observer_id_counter } ∧
        (∀ p, p ≠ 1 → w'.heap p = demoWorld.heap p) ∧
        w'.self.observer_id_counter = demoWorld.self.observer_id_counter + 1 ∧
        w'.self.AK_observable_type = demoWorld.self.AK_observable_type ∧
        w'.self.AK_ObservableType_Def = demoWorld.self.AK_ObservableType_Def ∧
        w'.self.AK_run_custom_action = demoWorld.self.AK_run_custom_action ∧
        w'.calls = demoWorld.calls :=
  ⟨rfl, ⟨0, by decide, rfl⟩,
    register_stores_in_first_empty_slot demoWorld 1 _ rfl ⟨0, by decide, rfl⟩⟩

theorem register_loop_not_ok (w : World) (observer : Ptr) :
    ∀ n i st w', AK_register_observer.loop w observer n i = some (st, w') →
      (st = Status.NOT_OK ↔ ∀ j, i ≤ j → j < i + n → slot w.self j ≠ NULL) := by
  intro n i st w' h
  rw [register_loop_eq] at h
  cases hf : firstIndex (fun j => decide (slot w.self j = NULL)) n i with
  | none =>
    rw [hf] at h
    simp only [Option.some.injEq, Prod.mk.injEq] at h
    constructor
    · intro _ j h1 h2
      simpa using firstIndex_none hf j h1 h2
    · intro _
      exact h.1.symm
  | some k =>
    rw [hf] at h
    obtain ⟨h1, h2, h3, _⟩ := firstIndex_some hf
    cases hl : load w.heap observer with
    | none => rw [hl] at h; simp at h
    | some rec =>
      rw [hl] at h
      simp only [Option.some.injEq, Prod.mk.injEq] at h
      constructor
      · intro hst
        rw [hst] at h
        exact absurd h.1 (by decide)
      · intro hall
        exact absurd (by simpa using h3) (hall k h1 h2)

theorem register_full (w : World) (o : Ptr)
    (hfull : ∀ i, i < MAX_OBSERVABLE_OBSERVERS w.self → slot w.self i ≠ NULL) :
    AK_register_observer w o = some (Status.NOT_OK, w) := by
  rw [AK_register_observer, register_loop_eq, firstIndex_of_all_false]
  intro j _ hj
  simpa using hfull j (by omega)

/-- Claim C2. When every slot is occupied, registering any observer handle
returns `NOT_OK` and leaves the whole state (slot table, counter, every
observer's id, call log) unchanged; conversely, whenever a call returns, it
returns `NOT_OK` exactly when no slot is empty. -/
theorem register_fails_iff_full (w : World) (o : Ptr) :
    ((∀ i, i < MAX_OBSERVABLE_OBSERVERS w.self → slot w.self i ≠ NULL) →
        AK_register_observer w o = some (Status.NOT_OK, w)) ∧
      (∀ st w', AK_register_observer w o = some (st, w') →
        (st = Status.NOT_OK ↔
          ∀ i, i < MAX_OBSERVABLE_OBSERVERS w.self → slot w.self i ≠ NULL)) := by
  constructor
  · exact register_full w o
  · intro st w' h
    rw [register_loop_not_ok w o _ 0 st w' h]
    constructor
    · intro hall j hj
      exact hall j (Nat.zero_le j) (by omega)
    · intro hall j _ hj
      exact hall j (by omega)

theorem register_fails_iff_full_witness :
    (∀ i, i < MAX_OBSERVABLE_OBSERVERS demoFull.self → slot demoFull.self i ≠ NULL) ∧
      AK_register_observer demoFull 3 = some (Status.NOT_OK, demoFull) ∧
      AK_register_observer demoWorld 3 ≠ some (Status.NOT_OK, demoWorld) :=
  have hfull : ∀ i, i < MAX_OBSERVABLE_OBSERVERS demoFull.self → slot demoFull.self i ≠ NULL := by
    decide
  ⟨hfull, (register_fails_iff_full demoFull 3).1 hfull, fun h =>
    absurd (((register_fails_iff_full demoWorld 3).2 _ _ h).1 rfl 0 (by decide)) (by decide)⟩

/-! ## Registering a sequence of observers -/

theorem firstIndex_eq_some {p : Nat → Bool} {n i k : Nat}
    (h1 : i ≤ k) (h2 : k < i + n) (h3 : p k = true)
    (h4 : ∀ j, i ≤ j → j < k → p j = false) : firstIndex p n i = some k := by
  obtain ⟨k', hk'⟩ := firstIndex_of_exists h1 h2 h3
  obtain ⟨g1, g2, g3, g4⟩ := firstIndex_some hk'
  have : k' = k := by
    rcases Nat.lt_trichotomy k' k with hlt | heq | hgt
    · rw [h4 k' g1 hlt] at g3
      simp at g3
    · exact heq
    · rw [g4 k h1 hgt] at h3
      simp at h3
  rw [hk', this]

theorem register_at (w : World) (o : Ptr) (rec : AK_observer) (k : Nat)
    (hlive : load w.heap o = some rec)
    (hk : k < MAX_OBSERVABLE_OBSERVERS w.self)
    (hnull : slot w.self k = NULL)
    (hocc : ∀ j, j < k → slot w.self j ≠ NULL) :
    AK_register_observer w o =
      some (Status.OK,
        { w with
          heap := store w.heap o { rec with observer_id := w.self.observer_id_counter }
          self :=
            { w.self with
              observer_id_counter := w.self.observer_id_counter + 1
              observers := w.self.observers.set k o } }) := by
  have hf : firstIndex (fun j => decide (slot w.self j = NULL))
      (MAX_OBSERVABLE_OBSERVERS w.self) 0 = some k :=
    firstIndex_eq_some (Nat.zero_le k) (by omega) (by simpa using hnull)
      (fun j _ hj => by simpa using hocc j hj)
  rw [AK_register_observer, register_loop_eq, hf, hlive]

theorem slot_append_left (self : AK_observable) (pre l : List Ptr) (j : Nat)
    (h : self.observers = pre ++ l) (hj : j < pre.length) :
    slot self j ∈ pre := by
  rw [slot, h, List.getD_append _ _ _ _ hj, List.getD_eq_getElem _ _ hj]
  exact List.getElem_mem hj

theorem slot_append_mid (self : AK_observable) (pre l : List Ptr) (x : Ptr)
    (h : self.observers = pre ++ x :: l) : slot self pre.length = x := by
  rw [slot, h, List.getD_append_right _ _ _ _ (le_refl _)]
  simp

theorem load_ne_null {heap : Heap} {p : Ptr} {rec : AK_observer}
    (h : load heap p = some rec) : p ≠ NULL := by
  intro hp
  simp [load, hp] at h

theorem load_store (heap : Heap) (o p : Ptr) (r rec : AK_observer)
    (h : load heap p = some rec) :
    ∃ rec', load (store heap o r) p = some rec' ∧
      (p ≠ o → rec' = rec) ∧ (p = o → rec' = r) := by
  have hp := load_ne_null h
  by_cases hpo : p = o
  · refine ⟨r, ?_, fun hne => absurd hpo hne, fun _ => rfl⟩
    simp [load, store, hp, hpo]
    exact fun h0 => hp (hpo.trans h0)
  · refine ⟨rec, ?_, fun _ => rfl, fun heq => absurd heq hpo⟩
    simpa [load, store, hp, hpo] using h

theorem registerAll_spec :
    ∀ (os : List Ptr) (w : World) (pre : List Ptr) (m : Nat),
      (∀ p ∈ pre, p ≠ NULL) →
      w.self.observers = pre ++ List.replicate m NULL →
      os.length ≤ m →
      (∀ o ∈ os, ∃ rec, load w.heap o = some rec) →
      ∃ w', registerAll w os =
          some ((List.range os.length).map
            (fun (k : Nat) => (Status.OK, w.self.observer_id_counter + (k : Int))), w') ∧
        w'.self.observers = pre ++ os ++ List.replicate (m - os.length) NULL ∧
        w'.self.observer_id_counter = w.self.observer_id_counter + os.length ∧
        w'.self.AK_observable_type = w.self.AK_observable_type ∧
        w'.self.AK_ObservableType_Def = w.self.AK_ObservableType_Def ∧
        w'.calls = w.calls ∧
        (∀ p, (load w'.heap p).map handlerAndContext =
          (load w.heap p).map handlerAndContext) := by
  intro os
  induction os with
  | nil =>
    intro w pre m _ hobs _ _
    exact ⟨w, by simp [registerAll], by simpa using hobs, by simp, rfl, rfl, rfl,
      fun p => rfl⟩
  | cons o os ih =>
    intro w pre m hpre hobs hlen hlive
    obtain ⟨rec, hrec⟩ := hlive o (List.mem_cons_self _ _)
    obtain ⟨m', rfl⟩ : ∃ m', m = m' + 1 := ⟨m - 1, by simp at hlen; omega⟩
    have hobs' : w.self.observers = pre ++ NULL :: List.replicate m' NULL := by
      rw [hobs, List.replicate_succ]
    have hreg := register_at w o rec pre.length hrec
      (by simp [MAX_OBSERVABLE_OBSERVERS, hobs'])
      (slot_append_mid _ _ _ _ hobs')
      (fun j hj => hpre _ (slot_append_left _ _ _ _ hobs' hj))
    have hone := load_ne_null hrec
    obtain ⟨w1, hw1⟩ : ∃ w1 : World, w1 =
        { w with
          heap := store w.heap o { rec with observer_id := w.self.observer_id_counter }
          self :=
            { w.self with
              observer_id_counter := w.self.observer_id_counter + 1
              observers := w.self.observers.set pre.length o } } := ⟨_, rfl⟩
    rw [← hw1] at hreg
    have hheap1 : w1.heap =
        store w.heap o { rec with observer_id := w.self.observer_id_counter } := by
      rw [hw1]
    have hobs1 : w1.self.observers = (pre ++ [o]) ++ List.replicate m' NULL := by
      rw [hw1]
      simp [hobs']
    have hcnt1 : w1.self.observer_id_counter = w.self.observer_id_counter + 1 := by
      rw [hw1]
    have hpre1 : ∀ p ∈ pre ++ [o], p ≠ NULL := by
      intro p hp
      rcases List.mem_append.mp hp with h | h
      · exact hpre p h
      · simp at h
        rw [h]
        exact hone
    have hlive1 : ∀ o' ∈ os, ∃ rec', load w1.heap o' = some rec' := by
      intro o' ho'
      obtain ⟨r', hr'⟩ := hlive o' (List.mem_cons_of_mem _ ho')
      obtain ⟨r'', hr'', _⟩ := load_store w.heap o o' _ r' hr'
      exact ⟨r'', by rw [hheap1]; exact hr''⟩
    obtain ⟨w2, h2, hobs2, hcnt2, htype2, hdef2, hcalls2, hheap2⟩ :=
      ih w1 (pre ++ [o]) m' hpre1 hobs1 (by simp at hlen; omega) hlive1
    refine ⟨w2, ?_, ?_, ?_, ?_, ?_, ?_, ?_⟩
    · have hload1 : load w1.heap o =
          some { rec with observer_id := w.self.observer_id_counter } := by
        rw [hheap1]
        exact load_store_same _ _ _ _ hrec
      simp only [registerAll, hreg, hload1, h2, List.length_cons, List.range_succ_eq_map,
        List.map_cons, List.map_map, hcnt1]
      simp only [Nat.cast_zero, add_zero, Option.some.injEq, Prod.mk.injEq, List.cons.injEq,
        true_and, and_true]
      apply List.map_congr_left
      intro k _
      simp only [Function.comp, Nat.cast_succ, Prod.mk.injEq, true_and]
      ring
    · rw [hobs2]
      simp
    · rw [hcnt2, hcnt1]
      simp only [List.length_cons, Nat.cast_succ]
      ring
    · rw [htype2, hw1]
    · rw [hdef2, hw1]
    · rw [hcalls2, hw1]
    · intro p
      rw [hheap2 p, hheap1]
      by_cases hpo : p = o
      · subst hpo
        rw [load_store_same _ _ _ _ hrec, hrec]
        rfl
      · simp [load, store, hpo]

/-- Claim C3. On a freshly constructed observable with `max` slots, registering
live observers `os` (at most `max` of them) one after the other succeeds every
time, the k-th call assigning id k (1, 2, 3, ...: strictly increasing, never
repeated); when `os` fills the table, one more registration of any handle
returns `NOT_OK` and changes nothing. -/
theorem register_sequence_assigns_ids (heap : Heap) (max : Nat) (t : Ptr)
    (d : AK_ObservableType_Enum) (a : Ptr) (os : List Ptr)
    (hlive : ∀ o ∈ os, ∃ rec, load heap o = some rec)
    (hlen : os.length ≤ max) :
    ∃ w', registerAll (freshWorld heap max t d a) os =
        some ((List.range os.length).map
          (fun (k : Nat) => (Status.OK, (k : Int) + 1)), w') ∧
      (os.length = max → ∀ o, AK_register_observer w' o = some (Status.NOT_OK, w')) := by
  obtain ⟨w', h1, hobs, _⟩ := registerAll_spec os (freshWorld heap max t d a) [] max
    (by simp) (by simp [freshWorld, AK_init_observable]) hlen hlive
  refine ⟨w', ?_, ?_⟩
  · rw [h1]
    simp only [freshWorld, AK_init_observable, Option.some.injEq, Prod.mk.injEq, and_true]
    apply List.map_congr_left
    intro k _
    simp only [Prod.mk.injEq, true_and]
    ring
  · intro hfull o
    have hobs' : w'.self.observers = os ++ [] := by
      rw [hobs, hfull]
      simp
    apply register_full w' o
    intro i hi
    have hmem : slot w'.self i ∈ os :=
      slot_append_left _ _ _ _ hobs' (by simpa [MAX_OBSERVABLE_OBSERVERS, hobs'] using hi)
    obtain ⟨rec, hrec⟩ := hlive _ hmem
    exact load_ne_null hrec

theorem register_sequence_assigns_ids_witness :
    (∀ o ∈ [1, 2], ∃ rec, load demoHeap o = some rec) ∧
      [1, 2].length ≤ 2 ∧
      ∃ w', registerAll
            (freshWorld demoHeap 2 50 AK_ObservableType_Enum.AK_CUSTOM_FIRST 60) [1, 2] =
          some ((List.range [1, 2].length).map
            (fun (k : Nat) => (Status.OK, (k : Int) + 1)), w') ∧
        ([1, 2].length = 2 → ∀ o, AK_register_observer w' o = some (Status.NOT_OK, w')) :=
  have hlive : ∀ o ∈ [1, 2], ∃ rec, load demoHeap o = some rec := by
    intro o ho
    simp only [List.mem_cons, List.mem_singleton, List.not_mem_nil, or_false] at ho
    rcases ho with rfl | rfl
    · exact ⟨_, rfl⟩
    · exact ⟨_, rfl⟩
  ⟨hlive, by decide,
    register_sequence_assigns_ids demoHeap 2 50 AK_ObservableType_Enum.AK_CUSTOM_FIRST 60
      [1, 2] hlive (by decide)⟩

/-! ## `AK_notify_observers` -/

theorem notify_live (w : World) (p t : Ptr) (d : AK_ObservableType_Enum)
    (rec : AK_observer) (hrec : load w.heap p = some rec)
    (hh : rec.AK_observer_type_event_handler ≠ NULL) :
    AK_notify w p t d =
      some (Status.OK,
        { w with
          calls := w.calls ++
            [{ handler := rec.AK_observer_type_event_handler
               observer_type := rec.AK_observer_type
               observable_type := t
               type := d }] }) := by
  simp [AK_notify, hrec, hh]

theorem notify_loop_spec :
    ∀ (l pre : List Ptr) (w : World),
      w.self.observers = pre ++ l →
      (∀ p ∈ l, p ≠ NULL →
        ∃ rec, load w.heap p = some rec ∧ rec.AK_observer_type_event_handler ≠ NULL) →
      ∃ cs, AK_notify_observers.loop l.length pre.length w =
          some (Status.OK, { w with calls := w.calls ++ cs }) ∧
        List.Forall₂ (fun p c => callOf w p = some c)
          (l.filter (fun p => decide (p ≠ NULL))) cs := by
  intro l
  induction l with
  | nil =>
    intro pre w _ _
    exact ⟨[], by simp [AK_notify_observers.loop], by simp⟩
  | cons x l ih =>
    intro pre w hobs hlive
    have hslot : slot w.self pre.length = x := slot_append_mid _ _ _ _ hobs
    have hobs' : w.self.observers = (pre ++ [x]) ++ l := by simp [hobs]
    have hlen : (pre ++ [x]).length = pre.length + 1 := by simp
    by_cases hx : x = NULL
    · obtain ⟨cs, h1, h2⟩ := ih (pre ++ [x]) w hobs'
        (fun p hp => hlive p (List.mem_cons_of_mem _ hp))
      refine ⟨cs, ?_, ?_⟩
      · rw [hlen] at h1
        simp only [List.length_cons, AK_notify_observers.loop, hslot, hx, ne_eq,
          not_true_eq_false, if_false]
        exact h1
      · simpa [hx] using h2
    · obtain ⟨rec, hrec, hh⟩ := hlive x (List.mem_cons_self _ _) hx
      have hn := notify_live w x w.self.AK_observable_type w.self.AK_ObservableType_Def
        rec hrec hh
      obtain ⟨cs, h1, h2⟩ := ih (pre ++ [x])
        { w with
          calls := w.calls ++
            [{ handler := rec.AK_observer_type_event_handler
               observer_type := rec.AK_observer_type
               observable_type := w.self.AK_observable_type
               type := w.self.AK_ObservableType_Def }] }
        hobs' (fun p hp => hlive p (List.mem_cons_of_mem _ hp))
      refine ⟨{ handler := rec.AK_observer_type_event_handler
                observer_type := rec.AK_observer_type
                observable_type := w.self.AK_observable_type
                type := w.self.AK_ObservableType_Def } :: cs, ?_, ?_⟩
      · rw [hlen] at h1
        simp only [List.length_cons, AK_notify_observers.loop, hslot, ne_eq, hx,
          not_false_eq_true, if_true, hn]
        rw [h1]
        simp
      · simp only [ne_eq, hx, not_false_eq_true, decide_True, List.filter_cons_of_pos]
        refine List.Forall₂.cons ?_ h2
        simp [callOf, hrec]

theorem callOf_congr (w w' : World) (p : Ptr)
    (hheap : (load w'.heap p).map handlerAndContext = (load w.heap p).map handlerAndContext)
    (ht : w'.self.AK_observable_type = w.self.AK_observable_type)
    (hd : w'.self.AK_ObservableType_Def = w.self.AK_ObservableType_Def) :
    callOf w' p = callOf w p := by
  unfold callOf
  rw [ht, hd]
  cases h1 : load w'.heap p with
  | none =>
    cases h2 : load w.heap p with
    | none => rfl
    | some r2 => rw [h1, h2] at hheap; simp at hheap
  | some r1 =>
    cases h2 : load w.heap p with
    | none => rw [h1, h2] at hheap; simp at hheap
    | some r2 =>
      rw [h1, h2] at hheap
      simp only [Option.map_some', Option.some.injEq, handlerAndContext, Prod.mk.injEq] at hheap
      simp [hheap.1, hheap.2]

/-- Claim C4. First part: in every state whose occupied slots hold live
observers with a handler, `AK_notify_observers` returns `OK`, changes nothing
but the call log, and appends exactly one call per occupied slot, in ascending
slot order, each with that observer's handler and context and the observable's
subject context and kind.  Second part: after live observers `os` were
registered in that order on a fresh observable (no unregisters), the calls made
are exactly one per element of `os`, in registration order. -/
theorem notify_observers_calls_each_occupied_slot :
    (∀ w : World,
      (∀ p ∈ w.self.observers, p ≠ NULL →
        ∃ rec, load w.heap p = some rec ∧ rec.AK_observer_type_event_handler ≠ NULL) →
      ∃ cs, AK_notify_observers w = some (Status.OK, { w with calls := w.calls ++ cs }) ∧
        List.Forall₂ (fun p c => callOf w p = some c) (occupied w.self) cs) ∧
    (∀ (heap : Heap) (max : Nat) (t : Ptr) (d : AK_ObservableType_Enum) (a : Ptr)
        (os : List Ptr),
      (∀ o ∈ os, ∃ rec, load heap o = some rec ∧ rec.AK_observer_type_event_handler ≠ NULL) →
      os.length ≤ max →
      ∃ rs w1 cs, registerAll (freshWorld heap max t d a) os = some (rs, w1) ∧
        AK_notify_observers w1 = some (Status.OK, { w1 with calls := cs }) ∧
        List.Forall₂
          (fun o c => ∃ rec, load heap o = some rec ∧
            c = { handler := rec.AK_observer_type_event_handler
                  observer_type := rec.AK_observer_type
                  observable_type := t
                  type := d }) os cs) := by
  have hgen : ∀ w : World,
      (∀ p ∈ w.self.observers, p ≠ NULL →
        ∃ rec, load w.heap p = some rec ∧ rec.AK_observer_type_event_handler ≠ NULL) →
      ∃ cs, AK_notify_observers w = some (Status.OK, { w with calls := w.calls ++ cs }) ∧
        List.Forall₂ (fun p c => callOf w p = some c) (occupied w.self) cs := by
    intro w hlive
    obtain ⟨cs, h1, h2⟩ := notify_loop_spec w.self.observers [] w (by simp) hlive
    exact ⟨cs, by simpa [AK_notify_observers, MAX_OBSERVABLE_OBSERVERS] using h1, h2⟩
  refine ⟨hgen, ?_⟩
  intro heap max t d a os hlive hlen
  obtain ⟨w1, h1, hobs, _, ht, hd, hcalls, hheap⟩ :=
    registerAll_spec os (freshWorld heap max t d a) [] max
      (by simp) (by simp [freshWorld, AK_init_observable]) hlen
      (fun o ho => (hlive o ho).imp fun _ h => h.1)
  have hco : ∀ p, callOf w1 p = callOf (freshWorld heap max t d a) p :=
    fun p => callOf_congr _ _ p (hheap p) ht hd
  have hnn : ∀ o ∈ os, o ≠ NULL := fun o ho =>
    let ⟨_, hr, _⟩ := hlive o ho
    load_ne_null hr
  have hocc : occupied w1.self = os := by
    simp only [occupied, hobs, List.nil_append, List.filter_append]
    rw [List.filter_replicate_of_neg (by simp), List.append_nil, List.filter_eq_self]
    intro o ho
    simpa using hnn o ho
  have hlive1 : ∀ p ∈ w1.self.observers, p ≠ NULL →
      ∃ rec, load w1.heap p = some rec ∧ rec.AK_observer_type_event_handler ≠ NULL := by
    intro p hp hpn
    have hpos : p ∈ os := by
      rw [← hocc]
      simp [occupied, hp, hpn]
    obtain ⟨rec, hrec, hh⟩ := hlive p hpos
    have hm := hheap p
    simp only [freshWorld, hrec, Option.map_some'] at hm
    cases h1 : load w1.heap p with
    | none => rw [h1] at hm; simp at hm
    | some r1 =>
      rw [h1] at hm
      simp only [Option.map_some', Option.some.injEq, handlerAndContext, Prod.mk.injEq] at hm
      exact ⟨r1, rfl, by rw [hm.1]; exact hh⟩
  obtain ⟨cs, h2, h3⟩ := hgen w1 hlive1
  refine ⟨_, w1, cs, h1, ?_, ?_⟩
  · rw [h2, hcalls]
    simp [freshWorld]
  · rw [hocc] at h3
    refine List.Forall₂.imp ?_ h3
    intro o c hc
    rw [hco o] at hc
    simp only [callOf, freshWorld, AK_init_observable, Option.map_eq_some'] at hc
    obtain ⟨rec, hrec, hc⟩ := hc
    exact ⟨rec, hrec, hc.symm⟩

theorem notify_observers_calls_each_occupied_slot_witness :
    ((∀ p ∈ demoFull.self.observers, p ≠ NULL →
        ∃ rec, load demoFull.heap p = some rec ∧
          rec.AK_observer_type_event_handler ≠ NULL) ∧
      ∃ cs, AK_notify_observers demoFull =
          some (Status.OK, { demoFull with calls := demoFull.calls ++ cs }) ∧
        List.Forall₂ (fun p c => callOf demoFull p = some c) (occupied demoFull.self) cs) ∧
    ((∀ o ∈ [1, 2], ∃ rec, load demoHeap o = some rec ∧
        rec.AK_observer_type_event_handler ≠ NULL) ∧
      [1, 2].length ≤ 2 ∧
      ∃ rs w1 cs, registerAll
            (freshWorld demoHeap 2 50 AK_ObservableType_Enum.AK_CUSTOM_FIRST 60) [1, 2] =
          some (rs, w1) ∧
        AK_notify_observers w1 = some (Status.OK, { w1 with calls := cs }) ∧
        List.Forall₂
          (fun o c => ∃ rec, load demoHeap o = some rec ∧
            c = { handler := rec.AK_observer_type_event_handler
                  observer_type := rec.AK_observer_type
                  observable_type := 50
                  type := AK_ObservableType_Enum.AK_CUSTOM_FIRST }) [1, 2] cs) :=
  have hlive : ∀ p ∈ demoFull.self.observers, p ≠ NULL →
      ∃ rec, load demoFull.heap p = some rec ∧
        rec.AK_observer_type_event_handler ≠ NULL := by
    intro p hp _
    simp only [demoFull, List.mem_cons, List.mem_singleton, List.not_mem_nil, or_false] at hp
    rcases hp with rfl | rfl
    · exact ⟨_, rfl, by decide⟩
    · exact ⟨_, rfl, by decide⟩
  have hlive' : ∀ o ∈ [1, 2], ∃ rec, load demoHeap o = some rec ∧
      rec.AK_observer_type_event_handler ≠ NULL := by
    intro o ho
    simp only [List.mem_cons, List.mem_singleton, List.not_mem_nil, or_false] at ho
    rcases ho with rfl | rfl
    · exact ⟨_, rfl, by decide⟩
    · exact ⟨_, rfl, by decide⟩
  ⟨⟨hlive, notify_observers_calls_each_occupied_slot.1 demoFull hlive⟩,
    hlive', by decide,
    notify_observers_calls_each_occupied_slot.2 demoHeap 2 50
      AK_ObservableType_Enum.AK_CUSTOM_FIRST 60 [1, 2] hlive' (by decide)⟩

/-! ## `AK_notify_observer` -/

theorem notify_observer_loop_eq (w : World) (observer : Ptr) :
    ∀ n i, AK_notify_observer.loop w observer n i =
      match firstIndex
          (fun j => decide (slot w.self j ≠ NULL ∧ slot w.self j = observer)) n i with
      | none => some (Status.NOT_OK, w)
      | some _ =>
        match AK_notify w observer w.self.AK_observable_type
            w.self.AK_ObservableType_Def with
        | none => none
        | some (_, w') => some (Status.OK, w') := by
  intro n
  induction n with
  | zero => intro i; simp [AK_notify_observer.loop, firstIndex]
  | succ n ih =>
    intro i
    unfold AK_notify_observer.loop firstIndex
    by_cases h : slot w.self i ≠ NULL ∧ slot w.self i = observer
    · rw [if_pos h, if_pos (by simpa using h)]
    · rw [if_neg h, ih, if_neg (by simpa using h)]

/-- Claim C5. For a live observer `o` with a handler that is stored in some
slot, `AK_notify_observer` returns `OK`, changes nothing but the call log, and
appends exactly one call: `o`'s handler on `o`'s context, the observable's
subject context and its kind. -/
theorem notify_observer_calls_only_that_observer (w : World) (o : Ptr) (rec : AK_observer)
    (hlive : load w.heap o = some rec)
    (hh : rec.AK_observer_type_event_handler ≠ NULL)
    (hstored : ∃ i, i < MAX_OBSERVABLE_OBSERVERS w.self ∧ slot w.self i = o) :
    AK_notify_observer w o =
      some (Status.OK,
        { w with
          calls := w.calls ++
            [{ handler := rec.AK_observer_type_event_handler
               observer_type := rec.AK_observer_type
               observable_type := w.self.AK_observable_type
               type := w.self.AK_ObservableType_Def }] }) := by
  obtain ⟨i, hi, hs⟩ := hstored
  have hne : o ≠ NULL := load_ne_null hlive
  obtain ⟨k, hk⟩ := firstIndex_of_exists
    (p := fun j => decide (slot w.self j ≠ NULL ∧ slot w.self j = o))
    (n := MAX_OBSERVABLE_OBSERVERS w.self) (Nat.zero_le i) (by omega)
    (by simp only [hs]; simpa using hne)
  rw [AK_notify_observer, notify_observer_loop_eq, hk]
  simp only [notify_live w o _ _ rec hlive hh]

theorem notify_observer_calls_only_that_observer_witness :
    load demoFull.heap 2 =
        some { observer_id := 2, AK_observer_type := 102,
               AK_observer_type_event_handler := 7 } ∧
      (7 : Ptr) ≠ NULL ∧
      (∃ i, i < MAX_OBSERVABLE_OBSERVERS demoFull.self ∧ slot demoFull.self i = 2) ∧
      AK_notify_observer demoFull 2 =
        some (Status.OK,
          { demoFull with
            calls := demoFull.calls ++
              [{ handler := 7
                 observer_type := 102
                 observable_type := demoFull.self.AK_observable_type
                 type := demoFull.self.AK_ObservableType_Def }] }) :=
  ⟨rfl, by decide, ⟨1, by decide, rfl⟩,
    notify_observer_calls_only_that_observer demoFull 2
      { observer_id := 2, AK_observer_type := 102, AK_observer_type_event_handler := 7 }
      rfl (by decide) ⟨1, by decide, rfl⟩⟩

/-- Claim C6. When no occupied slot holds the handle `o`, `AK_notify_observer`
returns `NOT_OK` and the state, call log included, is unchanged: no handler is
invoked. -/
theorem notify_observer_not_found (w : World) (o : Ptr)
    (habsent : ∀ i, i < MAX_OBSERVABLE_OBSERVERS w.self → slot w.self i ≠ NULL →
      slot w.self i ≠ o) :
    AK_notify_observer w o = some (Status.NOT_OK, w) := by
  rw [AK_notify_observer, notify_observer_loop_eq, firstIndex_of_all_false]
  intro j _ hj
  simp only [decide_eq_false_iff_not, not_and]
  exact habsent j (by omega)

theorem notify_observer_not_found_witness :
    (∀ i, i < MAX_OBSERVABLE_OBSERVERS demoFull.self → slot demoFull.self i ≠ NULL →
        slot demoFull.self i ≠ 3) ∧
      AK_notify_observer demoFull 3 = some (Status.NOT_OK, demoFull) :=
  have habsent : ∀ i, i < MAX_OBSERVABLE_OBSERVERS demoFull.self →
      slot demoFull.self i ≠ NULL → slot demoFull.self i ≠ 3 := by decide
  ⟨habsent, notify_observer_not_found demoFull 3 habsent⟩

/-! ## `AK_unregister_observer` -/

theorem unregister_loop_eq (w : World) (observer : Ptr) :
    ∀ n i, AK_unregister_observer.loop w observer n i =
      match firstIndex (fun j => decide (observer = slot w.self j)) n i with
      | none => some (Status.NOT_OK, w)
      | some k =>
        match free w.heap (slot w.self k) with
        | none => none
        | some heap =>
          some (Status.OK,
            { w with
              heap := heap
              self := { w.self with observers := w.self.observers.set k NULL } }) := by
  intro n
  induction n with
  | zero => intro i; simp [AK_unregister_observer.loop, firstIndex]
  | succ n ih =>
    intro i
    unfold AK_unregister_observer.loop firstIndex
    by_cases h : observer = slot w.self i
    · rw [if_pos h, if_pos (by simpa using h)]
    · rw [if_neg h, ih, if_neg (by simpa using h)]

/-- Every returning call of `AK_register_observer` is of one of two kinds: it
found no empty slot and changed nothing, or it filled the first empty slot. -/
theorem register_cases (w : World) (o : Ptr) (st : Status) (w' : World)
    (h : AK_register_observer w o = some (st, w')) :
    (st = Status.NOT_OK ∧ w' = w ∧
        ∀ j, j < MAX_OBSERVABLE_OBSERVERS w.self → slot w.self j ≠ NULL) ∨
      (st = Status.OK ∧ ∃ k rec, load w.heap o = some rec ∧
        k < MAX_OBSERVABLE_OBSERVERS w.self ∧ slot w.self k = NULL ∧
        (∀ j, j < k → slot w.self j ≠ NULL) ∧
        w' = { w with
               heap := store w.heap o { rec with observer_id := w.self.observer_id_counter }
               self :=
                 { w.self with
                   observer_id_counter := w.self.observer_id_counter + 1
                   observers := w.self.observers.set k o } }) := by
  rw [AK_register_observer, register_loop_eq] at h
  cases hf : firstIndex (fun j => decide (slot w.self j = NULL))
      (MAX_OBSERVABLE_OBSERVERS w.self) 0 with
  | none =>
    rw [hf] at h
    simp only [Option.some.injEq, Prod.mk.injEq] at h
    refine Or.inl ⟨h.1.symm, h.2.symm, ?_⟩
    intro j hj
    simpa using firstIndex_none hf j (Nat.zero_le j) (by omega)
  | some k =>
    rw [hf] at h
    obtain ⟨_, h2, h3, h4⟩ := firstIndex_some hf
    cases hl : load w.heap o with
    | none => rw [hl] at h; simp at h
    | some rec =>
      rw [hl] at h
      simp only [Option.some.injEq, Prod.mk.injEq] at h
      exact Or.inr ⟨h.1.symm, k, rec, rfl, by omega, by simpa using h3,
        fun j hj => by simpa using h4 j (Nat.zero_le j) hj, h.2.symm⟩

/-- Every returning call of `AK_unregister_observer` is of one of two kinds: no
slot equals the handle and nothing changed, or the first slot equal to the
handle was freed and cleared. -/
theorem unregister_cases (w : World) (o : Ptr) (st : Status) (w' : World)
    (h : AK_unregister_observer w o = some (st, w')) :
    (st = Status.NOT_OK ∧ w' = w ∧
        ∀ j, j < MAX_OBSERVABLE_OBSERVERS w.self → slot w.self j ≠ o) ∨
      (st = Status.OK ∧ ∃ k heap', free w.heap o = some heap' ∧
        k < MAX_OBSERVABLE_OBSERVERS w.self ∧ slot w.self k = o ∧
        (∀ j, j < k → slot w.self j ≠ o) ∧
        w' = { w with
               heap := heap'
               self := { w.self with observers := w.self.observers.set k NULL } }) := by
  rw [AK_unregister_observer, unregister_loop_eq] at h
  cases hf : firstIndex (fun j => decide (o = slot w.self j))
      (MAX_OBSERVABLE_OBSERVERS w.self) 0 with
  | none =>
    rw [hf] at h
    simp only [Option.some.injEq, Prod.mk.injEq] at h
    refine Or.inl ⟨h.1.symm, h.2.symm, ?_⟩
    intro j hj heq
    have := firstIndex_none hf j (Nat.zero_le j) (by omega)
    simp only [decide_eq_false_iff_not] at this
    exact this heq.symm
  | some k =>
    rw [hf] at h
    obtain ⟨_, h2, h3, h4⟩ := firstIndex_some hf
    have hk : slot w.self k = o := by
      simp only [decide_eq_true_eq] at h3
      exact h3.symm
    simp only [hk] at h
    cases hl : free w.heap o with
    | none => rw [hl] at h; simp at h
    | some heap' =>
      rw [hl] at h
      simp only [Option.some.injEq, Prod.mk.injEq] at h
      refine Or.inr ⟨h.1.symm, k, heap', rfl, by omega, hk, ?_, h.2.symm⟩
      intro j hj heq
      have := h4 j (Nat.zero_le j) hj
      simp only [decide_eq_false_iff_not] at this
      exact this heq.symm

theorem free_live (heap : Heap) (p : Ptr) (rec : AK_observer)
    (h : load heap p = some rec) :
    free heap p = some (fun q => if q = p then none else heap q) := by
  have hp := load_ne_null h
  simp only [load, hp, if_false] at h
  simp [free, hp, h]

/-- Claim C7. For a live observer `o` stored in some slot,
`AK_unregister_observer` returns `OK`, frees `o`, sets the first slot holding
`o` to `NULL`, and keeps every other slot at its index with its content; the
counter, the other fields, the other observers and the call log are
unchanged. -/
theorem unregister_clears_only_that_slot (w : World) (o : Ptr) (rec : AK_observer)
    (hlive : load w.heap o = some rec)
    (hstored : ∃ i, i < MAX_OBSERVABLE_OBSERVERS w.self ∧ slot w.self i = o) :
    ∃ i w', AK_unregister_observer w o = some (Status.OK, w') ∧
      i < MAX_OBSERVABLE_OBSERVERS w.self ∧
      slot w.self i = o ∧
      (∀ j, j < i → slot w.self j ≠ o) ∧
      slot w'.self i = NULL ∧
      (∀ j, j ≠ i → slot w'.self j = slot w.self j) ∧
      MAX_OBSERVABLE_OBSERVERS w'.self = MAX_OBSERVABLE_OBSERVERS w.self ∧
      w'.self.observer_id_counter = w.self.observer_id_counter ∧
      w'.self.AK_observable_type = w.self.AK_observable_type ∧
      w'.self.AK_ObservableType_Def = w.self.AK_ObservableType_Def ∧
      w'.self.AK_run_custom_action = w.self.AK_run_custom_action ∧
      w'.heap o = none ∧
      (∀ p, p ≠ o → w'.heap p = w.heap p) ∧
      w'.calls = w.calls := by
  obtain ⟨i0, hi0, hs0⟩ := hstored
  obtain ⟨k, hk⟩ := firstIndex_of_exists (p := fun j => decide (o = slot w.self j))
    (n := MAX_OBSERVABLE_OBSERVERS w.self) (Nat.zero_le i0) (by omega) (by simpa using hs0.symm)
  obtain ⟨_, hk2, hk3, hk4⟩ := firstIndex_some hk
  have hko : slot w.self k = o := by
    simp only [decide_eq_true_eq] at hk3
    exact hk3.symm
  have hklt : k < w.self.observers.length := by
    simpa [MAX_OBSERVABLE_OBSERVERS] using hk2
  refine ⟨k,
    { w with
      heap := fun q => if q = o then none else w.heap q
      self := { w.self with observers := w.self.observers.set k NULL } },
    ?_, by omega, hko, ?_, ?_, ?_, ?_, rfl, rfl, rfl, rfl, ?_, ?_, rfl⟩
  · rw [AK_unregister_observer, unregister_loop_eq, hk]
    simp only [hko, free_live _ _ _ hlive]
  · intro j hj heq
    have := hk4 j (Nat.zero_le j) hj
    simp only [decide_eq_false_iff_not] at this
    exact this heq.symm
  · rw [slot_set w.self _ k NULL rfl k]
    simp [hklt]
  · intro j hj
    rw [slot_set w.self _ k NULL rfl j]
    simp [hj]
  · simp [MAX_OBSERVABLE_OBSERVERS]
  · simp
  · intro p hp
    simp [hp]

theorem unregister_clears_only_that_slot_witness :
    load demoFull.heap 2 =
        some { observer_id := 2, AK_observer_type := 102,
               AK_observer_type_event_handler := 7 } ∧
      (∃ i, i < MAX_OBSERVABLE_OBSERVERS demoFull.self ∧ slot demoFull.self i = 2) ∧
      ∃ i w', AK_unregister_observer demoFull 2 = some (Status.OK, w') ∧
        i < MAX_OBSERVABLE_OBSERVERS demoFull.self ∧
        slot demoFull.self i = 2 ∧
        (∀ j, j < i → slot demoFull.self j ≠ 2) ∧
        slot w'.self i = NULL ∧
        (∀ j, j ≠ i → slot w'.self j = slot demoFull.self j) ∧
        MAX_OBSERVABLE_OBSERVERS w'.self = MAX_OBSERVABLE_OBSERVERS demoFull.self ∧
        w'.self.observer_id_counter = demoFull.self.observer_id_counter ∧
        w'.self.AK_observable_type = demoFull.self.AK_observable_type ∧
        w'.self.AK_ObservableType_Def = demoFull.self.AK_ObservableType_Def ∧
        w'.self.AK_run_custom_action = demoFull.self.AK_run_custom_action ∧
        w'.heap 2 = none ∧
        (∀ p, p ≠ 2 → w'.heap p = demoFull.heap p) ∧
        w'.calls = demoFull.calls :=
  ⟨rfl, ⟨1, by decide, rfl⟩,
    unregister_clears_only_that_slot demoFull 2 _ rfl ⟨1, by decide, rfl⟩⟩

theorem unregister_absent (w : World) (o : Ptr)
    (habsent : ∀ i, i < MAX_OBSERVABLE_OBSERVERS w.self → slot w.self i ≠ o) :
    AK_unregister_observer w o = some (Status.NOT_OK, w) := by
  rw [AK_unregister_observer, unregister_loop_eq, firstIndex_of_all_false]
  intro j _ hj
  simp only [decide_eq_false_iff_not]
  exact fun heq => habsent j (by omega) heq.symm

/-- Claim C8. When no slot equals the handle `o` (never registered, or already
unregistered), `AK_unregister_observer` returns `NOT_OK` and the whole state,
slot table and counter included, is unchanged. -/
theorem unregister_not_found (w : World) (o : Ptr)
    (habsent : ∀ i, i < MAX_OBSERVABLE_OBSERVERS w.self → slot w.self i ≠ o) :
    AK_unregister_observer w o = some (Status.NOT_OK, w) :=
  unregister_absent w o habsent

theorem unregister_not_found_witness :
    (∀ i, i < MAX_OBSERVABLE_OBSERVERS demoFull.self → slot demoFull.self i ≠ 3) ∧
      AK_unregister_observer demoFull 3 = some (Status.NOT_OK, demoFull) :=
  have habsent : ∀ i, i < MAX_OBSERVABLE_OBSERVERS demoFull.self →
      slot demoFull.self i ≠ 3 := by decide
  ⟨habsent, unregister_not_found demoFull 3 habsent⟩

/-! ## Unregistering twice -/

/-- Claim C9, counterexample. On the fresh two-slot sample observable, observer 1
is registered, then registered again and unregistered (both calls return `OK`);
the subsequent `AK_unregister_observer` of the same handle still finds it in
slot 1 and frees it a second time, so it does not return `NOT_OK`. -/
theorem unregister_after_duplicate_registration_not_rejected :
    ∃ w0 w1 w2 : World,
      AK_register_observer demoWorld 1 = some (Status.OK, w0) ∧
      AK_register_observer w0 1 = some (Status.OK, w1) ∧
      AK_unregister_observer w1 1 = some (Status.OK, w2) ∧
      w2.self.observers = [NULL, 1] ∧
      AK_unregister_observer w2 1 = none ∧
      ∀ w3, AK_unregister_observer w2 1 ≠ some (Status.NOT_OK, w3) := by
  refine ⟨_, _, _, rfl, rfl, rfl, rfl, rfl, ?_⟩
  intro w3 h
  have hnone : AK_unregister_observer
      { heap := fun q => if q = 1 then none else
          store (store demoHeap 1 { observer_id := 1, AK_observer_type := 101,
                                     AK_observer_type_event_handler := 7 })
            1 { observer_id := 2, AK_observer_type := 101,
                AK_observer_type_event_handler := 7 } q
        self :=
          { observers := [NULL, 1]
            observer_id_counter := 3
            AK_observable_type := 50
            AK_ObservableType_Def := AK_ObservableType_Enum.AK_CUSTOM_FIRST
            AK_run_custom_action := 60 }
        calls := [] } 1 = none := rfl
  exact absurd (hnone.symm.trans h) (by simp)

/-- Claim C9, amended. If the handle `o` is in no slot before it is registered,
and it is then registered and unregistered (both calls returning `OK`), a
further `AK_unregister_observer` of `o` returns `NOT_OK` and changes nothing. -/
theorem unregister_twice_fails (w : World) (o : Ptr) (w1 w2 : World)
    (hnew : ∀ i, i < MAX_OBSERVABLE_OBSERVERS w.self → slot w.self i ≠ o)
    (hreg : AK_register_observer w o = some (Status.OK, w1))
    (hunreg : AK_unregister_observer w1 o = some (Status.OK, w2)) :
    AK_unregister_observer w2 o = some (Status.NOT_OK, w2) := by
  rcases register_cases w o _ _ hreg with ⟨hst, _⟩ | ⟨_, k, rec, hrec, hk, _, _, hw1⟩
  · exact absurd hst (by decide)
  rcases unregister_cases w1 o _ _ hunreg with ⟨hst, _⟩ | ⟨_, k', heap', _, hk', hsk', hfirst, hw2⟩
  · exact absurd hst (by decide)
  have hone : o ≠ NULL := load_ne_null hrec
  have hklt : k < w.self.observers.length := by
    simpa [MAX_OBSERVABLE_OBSERVERS] using hk
  have hslot1 : ∀ j, slot w1.self j = if j = k ∧ k < w.self.observers.length then o
      else slot w.self j := by
    intro j
    exact slot_set w.self w1.self k o (by rw [hw1]) j
  have hmax1 : MAX_OBSERVABLE_OBSERVERS w1.self = MAX_OBSERVABLE_OBSERVERS w.self := by
    rw [hw1]
    simp [MAX_OBSERVABLE_OBSERVERS]
  have hkk : k' = k := by
    by_contra hne
    have h1 := hslot1 k'
    rw [if_neg (fun h => hne h.1), hsk'] at h1
    exact hnew k' (by omega) h1.symm
  subst hkk
  have hslot2 : ∀ j, slot w2.self j = if j = k' ∧ k' < w1.self.observers.length then NULL
      else slot w1.self j := by
    intro j
    exact slot_set w1.self w2.self k' NULL (by rw [hw2]) j
  have hmax2 : MAX_OBSERVABLE_OBSERVERS w2.self = MAX_OBSERVABLE_OBSERVERS w1.self := by
    rw [hw2]
    simp [MAX_OBSERVABLE_OBSERVERS]
  apply unregister_absent
  intro i hi
  rw [hslot2 i]
  by_cases hik : i = k'
  · have : k' < w1.self.observers.length := by
      simpa [MAX_OBSERVABLE_OBSERVERS] using hk'
    rw [if_pos ⟨hik, this⟩]
    exact fun h => hone h.symm
  · rw [if_neg (fun h => hik h.1), hslot1 i, if_neg (fun h => hik h.1)]
    exact hnew i (by omega)

theorem unregister_twice_fails_witness :
    (∀ i, i < MAX_OBSERVABLE_OBSERVERS demoWorld.self → slot demoWorld.self i ≠ 1) ∧
      ∃ w1 w2, AK_register_observer demoWorld 1 = some (Status.OK, w1) ∧
        AK_unregister_observer w1 1 = some (Status.OK, w2) ∧
        AK_unregister_observer w2 1 = some (Status.NOT_OK, w2) :=
  have hnew : ∀ i, i < MAX_OBSERVABLE_OBSERVERS demoWorld.self →
      slot demoWorld.self i ≠ 1 := by decide
  ⟨hnew, _, _, rfl, rfl, unregister_twice_fails demoWorld 1 _ _ hnew rfl rfl⟩

/-! ## The registry invariant -/

theorem slot_replicate (max : Nat) (t : Ptr) (d : AK_ObservableType_Enum) (a : Ptr)
    (i : Nat) : slot (AK_init_observable max t d a) i = NULL := by
  simp only [slot, AK_init_observable, List.getD_eq_getElem?_getD, List.getElem?_replicate]
  by_cases h : i < max <;> simp [h]

theorem registryInv_init (heap : Heap) (max : Nat) (t : Ptr)
    (d : AK_ObservableType_Enum) (a : Ptr) : RegistryInv (freshWorld heap max t d a) where
  counter_pos := by simp [freshWorld, AK_init_observable]
  live := fun i _ h => absurd (slot_replicate max t d a i) h
  slots_distinct := fun i _ _ _ h _ => absurd (slot_replicate max t d a i) h
  ids_distinct := fun i _ _ _ _ _ h _ _ _ _ => absurd (slot_replicate max t d a i) h

theorem load_store_other (heap : Heap) (o p : Ptr) (r : AK_observer) (h : p ≠ o) :
    load (store heap o r) p = load heap p := by
  simp [load, store, h]

theorem registryInv_register (w : World) (o : Ptr) (st : Status) (w' : World)
    (hinv : RegistryInv w)
    (hnew : ∀ i, i < MAX_OBSERVABLE_OBSERVERS w.self → slot w.self i ≠ o)
    (h : AK_register_observer w o = some (st, w')) : RegistryInv w' := by
  rcases register_cases w o st w' h with ⟨_, hw, _⟩ | ⟨_, k, rec, hrec, hk, hnull, _, hw⟩
  · rw [hw]
    exact hinv
  have hone : o ≠ NULL := load_ne_null hrec
  have hklt : k < w.self.observers.length := by
    simpa [MAX_OBSERVABLE_OBSERVERS] using hk
  have hslot : ∀ j, slot w'.self j = if j = k then o else slot w.self j := by
    intro j
    rw [slot_set w.self w'.self k o (by rw [hw]) j]
    simp [hklt]
  have hmax : MAX_OBSERVABLE_OBSERVERS w'.self = MAX_OBSERVABLE_OBSERVERS w.self := by
    rw [hw]
    simp [MAX_OBSERVABLE_OBSERVERS]
  have hcnt : w'.self.observer_id_counter = w.self.observer_id_counter + 1 := by rw [hw]
  have hheap : w'.heap =
      store w.heap o { rec with observer_id := w.self.observer_id_counter } := by rw [hw]
  have hloado : load w'.heap o =
      some { rec with observer_id := w.self.observer_id_counter } := by
    rw [hheap]
    exact load_store_same _ _ _ _ hrec
  have hother : ∀ j, j < MAX_OBSERVABLE_OBSERVERS w.self → j ≠ k →
      load w'.heap (slot w.self j) = load w.heap (slot w.self j) := by
    intro j hj _
    rw [hheap]
    exact load_store_other _ _ _ _ (hnew j hj)
  have hpos := hinv.counter_pos
  refine ⟨by omega, ?_, ?_, ?_⟩
  · intro i hi hne
    rw [hmax] at hi
    rw [hslot i] at hne ⊢
    by_cases hik : i = k
    · rw [if_pos hik, hloado]
      exact ⟨_, rfl, hpos, by rw [hcnt]; simp⟩
    · rw [if_neg hik] at hne ⊢
      obtain ⟨r, hr, h1, h2⟩ := hinv.live i hi hne
      rw [hother i hi hik]
      exact ⟨r, hr, h1, by omega⟩
  · intro i j hi hj hne heq
    rw [hmax] at hi hj
    rw [hslot i] at hne heq
    rw [hslot j] at heq
    by_cases hik : i = k <;> by_cases hjk : j = k
    · rw [hik, hjk]
    · rw [if_pos hik, if_neg hjk] at heq
      exact absurd heq.symm (hnew j hj)
    · rw [if_neg hik, if_pos hjk] at heq
      exact absurd heq (hnew i hi)
    · rw [if_neg hik] at hne heq
      rw [if_neg hjk] at heq
      exact hinv.slots_distinct i j hi hj hne heq
  · intro i j ri rj hi hj hnei hnej hli hlj hid
    rw [hmax] at hi hj
    rw [hslot i] at hnei hli
    rw [hslot j] at hnej hlj
    by_cases hik : i = k <;> by_cases hjk : j = k
    · rw [hik, hjk]
    · rw [if_pos hik, hloado] at hli
      rw [if_neg hjk] at hnej hlj
      rw [hother j hj hjk] at hlj
      obtain ⟨r, hr, _, h2⟩ := hinv.live j hj hnej
      rw [hr] at hlj
      rw [← Option.some.inj hli, ← Option.some.inj hlj] at hid
      simp only at hid
      omega
    · rw [if_pos hjk, hloado] at hlj
      rw [if_neg hik] at hnei hli
      rw [hother i hi hik] at hli
      obtain ⟨r, hr, _, h2⟩ := hinv.live i hi hnei
      rw [hr] at hli
      rw [← Option.some.inj hli, ← Option.some.inj hlj] at hid
      simp only at hid
      omega
    · rw [if_neg hik] at hnei hli
      rw [if_neg hjk] at hnej hlj
      rw [hother i hi hik] at hli
      rw [hother j hj hjk] at hlj
      exact hinv.ids_distinct i j ri rj hi hj hnei hnej hli hlj hid

theorem load_free_other (heap heap' : Heap) (o p : Ptr)
    (h : free heap o = some heap') (hp : p ≠ o) : load heap' p = load heap p := by
  unfold free at h
  by_cases ho : o = NULL
  · rw [if_pos ho] at h
    rw [← Option.some.inj h]
  · rw [if_neg ho] at h
    cases hh : heap o with
    | none => rw [hh] at h; simp at h
    | some r =>
      rw [hh] at h
      simp only [Option.some.injEq] at h
      rw [← h]
      simp [load, hp]

theorem registryInv_unregister (w : World) (o : Ptr) (st : Status) (w' : World)
    (hinv : RegistryInv w)
    (h : AK_unregister_observer w o = some (st, w')) : RegistryInv w' := by
  rcases unregister_cases w o st w' h with ⟨_, hw, _⟩ | ⟨_, k, heap', hfree, hk, hsk, _, hw⟩
  · rw [hw]
    exact hinv
  have hklt : k < w.self.observers.length := by
    simpa [MAX_OBSERVABLE_OBSERVERS] using hk
  have hslot : ∀ j, slot w'.self j = if j = k then NULL else slot w.self j := by
    intro j
    rw [slot_set w.self w'.self k NULL (by rw [hw]) j]
    simp [hklt]
  have hmax : MAX_OBSERVABLE_OBSERVERS w'.self = MAX_OBSERVABLE_OBSERVERS w.self := by
    rw [hw]
    simp [MAX_OBSERVABLE_OBSERVERS]
  have hcnt : w'.self.observer_id_counter = w.self.observer_id_counter := by rw [hw]
  have hheap : w'.heap = heap' := by rw [hw]
  have hother : ∀ j, j < MAX_OBSERVABLE_OBSERVERS w.self → j ≠ k → slot w.self j ≠ NULL →
      load w'.heap (slot w.self j) = load w.heap (slot w.self j) := by
    intro j hj hjk hne
    rw [hheap]
    apply load_free_other _ _ _ _ hfree
    intro heq
    exact hjk (hinv.slots_distinct j k hj hk hne (heq.trans hsk.symm))
  refine ⟨by rw [hcnt]; exact hinv.counter_pos, ?_, ?_, ?_⟩
  · intro i hi hne
    rw [hmax] at hi
    rw [hslot i] at hne ⊢
    by_cases hik : i = k
    · rw [if_pos hik] at hne
      exact absurd rfl hne
    · rw [if_neg hik] at hne ⊢
      rw [hother i hi hik hne, hcnt]
      exact hinv.live i hi hne
  · intro i j hi hj hne heq
    rw [hmax] at hi hj
    rw [hslot i] at hne heq
    rw [hslot j] at heq
    by_cases hik : i = k
    · rw [if_pos hik] at hne
      exact absurd rfl hne
    · rw [if_neg hik] at hne heq
      by_cases hjk : j = k
      · rw [if_pos hjk] at heq
        exact absurd heq hne
      · rw [if_neg hjk] at heq
        exact hinv.slots_distinct i j hi hj hne heq
  · intro i j ri rj hi hj hnei hnej hli hlj hid
    rw [hmax] at hi hj
    rw [hslot i] at hnei hli
    rw [hslot j] at hnej hlj
    by_cases hik : i = k
    · rw [if_pos hik] at hnei
      exact absurd rfl hnei
    · by_cases hjk : j = k
      · rw [if_pos hjk] at hnej
        exact absurd rfl hnej
      · rw [if_neg hik] at hnei hli
        rw [if_neg hjk] at hnej hlj
        rw [hother i hi hik hnei] at hli
        rw [hother j hj hjk hnej] at hlj
        exact hinv.ids_distinct i j ri rj hi hj hnei hnej hli hlj hid

theorem registryInv_of_reachableNoDup (w : World) (h : ReachableNoDup w) :
    RegistryInv w := by
  induction h with
  | init heap max t d a => exact registryInv_init heap max t d a
  | register w o st w' _ hnew hstep ih => exact registryInv_register w o st w' ih hnew hstep
  | unregister w o st w' _ hstep ih => exact registryInv_unregister w o st w' ih hstep

/-! ## `AK_get_observer_by_id` -/

theorem get_observer_by_id_loop_eq (w : World) (id : Int) :
    ∀ n i,
      (∀ j, i ≤ j → j < i + n → slot w.self j ≠ NULL →
        ∃ rec, load w.heap (slot w.self j) = some rec) →
      AK_get_observer_by_id.loop w id n i =
        match firstIndex (idMatches w id) n i with
        | none => some (NULL, w)
        | some k => some (slot w.self k, w) := by
  intro n
  induction n with
  | zero => intro i _; simp [AK_get_observer_by_id.loop, firstIndex]
  | succ n ih =>
    intro i hlive
    have ih' := ih (i + 1) (fun j h1 h2 => hlive j (by omega) (by omega))
    unfold AK_get_observer_by_id.loop firstIndex
    by_cases hne : slot w.self i ≠ NULL
    · obtain ⟨rec, hrec⟩ := hlive i (le_refl _) (by omega) hne
      rw [if_pos hne, hrec]
      by_cases hid : rec.observer_id = id
      · simp [idMatches, hne, hrec, hid]
      · simp only [idMatches, hne, hrec, hid, if_false, ih']
        simp
    · rw [if_neg hne, ih']
      simp [idMatches, hne]

theorem idMatches_iff (w : World) (id : Int) (j : Nat) :
    idMatches w id j = true ↔
      slot w.self j ≠ NULL ∧
        ∃ rec, load w.heap (slot w.self j) = some rec ∧ rec.observer_id = id := by
  unfold idMatches
  cases h : load w.heap (slot w.self j) with
  | none => simp
  | some rec => simp

theorem get_observer_by_id_of_inv (w : World) (hinv : RegistryInv w) (id : Int) :
    ∃ p, AK_get_observer_by_id w id = some (p, w) ∧
      (∀ o, o ≠ NULL →
        (p = o ↔ (∃ i, i < MAX_OBSERVABLE_OBSERVERS w.self ∧ slot w.self i = o) ∧
          ∃ rec, load w.heap o = some rec ∧ rec.observer_id = id)) ∧
      (p = NULL ↔ ∀ i, i < MAX_OBSERVABLE_OBSERVERS w.self → slot w.self i ≠ NULL →
        ∀ rec, load w.heap (slot w.self i) = some rec → rec.observer_id ≠ id) := by
  have hloop := get_observer_by_id_loop_eq w id (MAX_OBSERVABLE_OBSERVERS w.self) 0
    (fun j _ hj hne => (hinv.live j (by omega) hne).imp fun _ h => h.1)
  cases hf : firstIndex (idMatches w id) (MAX_OBSERVABLE_OBSERVERS w.self) 0 with
  | none =>
    rw [hf] at hloop
    have hno : ∀ j, j < MAX_OBSERVABLE_OBSERVERS w.self → slot w.self j ≠ NULL →
        ∀ rec, load w.heap (slot w.self j) = some rec → rec.observer_id ≠ id := by
      intro j hj hne rec hrec hid
      have := firstIndex_none hf j (Nat.zero_le j) (by omega)
      rw [(idMatches_iff w id j).mpr ⟨hne, rec, hrec, hid⟩] at this
      simp at this
    refine ⟨NULL, hloop, ?_, ?_⟩
    · intro o ho
      constructor
      · intro h
        exact absurd h.symm ho
      · rintro ⟨⟨i, hi, hs⟩, rec, hrec, hid⟩
        rw [← hs] at hrec ho
        exact absurd hid (hno i hi ho rec hrec)
    · exact ⟨fun _ => hno, fun _ => rfl⟩
  | some k =>
    rw [hf] at hloop
    obtain ⟨_, hk, hm, _⟩ := firstIndex_some hf
    obtain ⟨hne, rec, hrec, hid⟩ := (idMatches_iff w id k).mp hm
    have hk' : k < MAX_OBSERVABLE_OBSERVERS w.self := by omega
    refine ⟨slot w.self k, hloop, ?_, ?_⟩
    · intro o ho
      constructor
      · intro h
        rw [← h]
        exact ⟨⟨k, hk', rfl⟩, rec, hrec, hid⟩
      · rintro ⟨⟨i, hi, hs⟩, ro, hro, hido⟩
        rw [← hs] at hro ho
        have := hinv.ids_distinct k i rec ro hk' hi hne ho hrec hro (hid.trans hido.symm)
        rw [this, hs]
    · constructor
      · intro h
        exact absurd h hne
      · intro h
        exact absurd hid (h k hk' hne rec hrec)

/-- Claim C10, counterexample. On the fresh two-slot sample observable, observer 1
is registered twice (its id becomes 2) and then unregistered with status `OK`.
The state is reachable by register/unregister calls, the observer has been
unregistered and freed, yet slot 1 still holds its address: the lookup of id 2
dereferences the freed observer instead of returning `NULL`. -/
theorem get_observer_by_id_after_duplicate_unregister :
    ∃ w0 w1 w2 : World,
      AK_register_observer demoWorld 1 = some (Status.OK, w0) ∧
      AK_register_observer w0 1 = some (Status.OK, w1) ∧
      load w1.heap 1 = some { observer_id := 2, AK_observer_type := 101,
                              AK_observer_type_event_handler := 7 } ∧
      AK_unregister_observer w1 1 = some (Status.OK, w2) ∧
      Reachable w2 ∧
      w2.self.observers = [NULL, 1] ∧
      w2.heap 1 = none ∧
      AK_get_observer_by_id w2 2 = none ∧
      ∀ w3, AK_get_observer_by_id w2 2 ≠ some (NULL, w3) := by
  have hstep : ∃ w0 w1 w2 : World,
      AK_register_observer demoWorld 1 = some (Status.OK, w0) ∧
      AK_register_observer w0 1 = some (Status.OK, w1) ∧
      load w1.heap 1 = some { observer_id := 2, AK_observer_type := 101,
                              AK_observer_type_event_handler := 7 } ∧
      AK_unregister_observer w1 1 = some (Status.OK, w2) ∧
      w2.self.observers = [NULL, 1] ∧
      w2.heap 1 = none ∧
      AK_get_observer_by_id w2 2 = none := ⟨_, _, _, rfl, rfl, rfl, rfl, rfl, rfl, rfl⟩
  obtain ⟨w0, w1, w2, h0, h1, hl, h2, hobs, hfreed, hget⟩ := hstep
  refine ⟨w0, w1, w2, h0, h1, hl, h2, ?_, hobs, hfreed, hget, ?_⟩
  · exact Reachable.unregister w1 1 _ w2
      (Reachable.register w0 1 _ w1
        (Reachable.register demoWorld 1 _ w0 (Reachable.init demoHeap 2 50 _ 60) h0) h1) h2
  · intro w3 h
    rw [hget] at h
    simp at h

/-- Claim C10, amended. In every state reachable from construction by
register/unregister calls in which no handle is registered while it already is
in a slot, `AK_get_observer_by_id` returns (leaving the state unchanged) a
pointer `p` such that, for every observer `o`, `p = o` exactly when `o` is
stored in a slot and its `observer_id` equals `id`, and `p = NULL` exactly when
no stored observer has that id.  In particular, after a stored observer is
unregistered the lookup of its id returns `NULL`; and after two distinct live
observers are registered on a fresh observable with at least two slots, the
lookup of id 1 returns the first one. -/
theorem get_observer_by_id_finds_registered :
    (∀ w : World, ReachableNoDup w → ∀ id : Int,
      ∃ p, AK_get_observer_by_id w id = some (p, w) ∧
        (∀ o, o ≠ NULL →
          (p = o ↔ (∃ i, i < MAX_OBSERVABLE_OBSERVERS w.self ∧ slot w.self i = o) ∧
            ∃ rec, load w.heap o = some rec ∧ rec.observer_id = id)) ∧
        (p = NULL ↔ ∀ i, i < MAX_OBSERVABLE_OBSERVERS w.self → slot w.self i ≠ NULL →
          ∀ rec, load w.heap (slot w.self i) = some rec → rec.observer_id ≠ id)) ∧
    (∀ (w : World) (o : Ptr) (rec : AK_observer) (w' : World),
      ReachableNoDup w → load w.heap o = some rec →
      AK_unregister_observer w o = some (Status.OK, w') →
      AK_get_observer_by_id w' rec.observer_id = some (NULL, w')) ∧
    (∀ (heap : Heap) (max : Nat) (t : Ptr) (d : AK_ObservableType_Enum) (a : Ptr)
        (o1 o2 : Ptr) (r1 r2 : AK_observer),
      load heap o1 = some r1 → load heap o2 = some r2 → o1 ≠ o2 → 2 ≤ max →
      ∃ rs w2, registerAll (freshWorld heap max t d a) [o1, o2] = some (rs, w2) ∧
        AK_get_observer_by_id w2 1 = some (o1, w2)) := by
  refine ⟨fun w hr id => get_observer_by_id_of_inv w (registryInv_of_reachableNoDup w hr) id,
    ?_, ?_⟩
  · intro w o rec w' hr hrec hun
    have hinv := registryInv_of_reachableNoDup w hr
    have hinv' := registryInv_unregister w o _ w' hinv hun
    obtain ⟨p, hget, _, hnull⟩ := get_observer_by_id_of_inv w' hinv' rec.observer_id
    have hp : p = NULL := by
      rw [hnull]
      rcases unregister_cases w o _ w' hun with ⟨hst, _⟩ | ⟨_, k, heap', hfree, hk, hsk, _, hw⟩
      · exact absurd hst (by decide)
      have hone : o ≠ NULL := load_ne_null hrec
      have hklt : k < w.self.observers.length := by
        simpa [MAX_OBSERVABLE_OBSERVERS] using hk
      have hslot : ∀ j, slot w'.self j = if j = k then NULL else slot w.self j := by
        intro j
        rw [slot_set w.self w'.self k NULL (by rw [hw]) j]
        simp [hklt]
      have hmax : MAX_OBSERVABLE_OBSERVERS w'.self = MAX_OBSERVABLE_OBSERVERS w.self := by
        rw [hw]
        simp [MAX_OBSERVABLE_OBSERVERS]
      have hheap : w'.heap = heap' := by rw [hw]
      intro i hi hne r hr' hid
      rw [hmax] at hi
      rw [hslot i] at hne hr'
      by_cases hik : i = k
      · rw [if_pos hik] at hne
        exact hne rfl
      · rw [if_neg hik] at hne hr'
        have hio : slot w.self i ≠ o := fun heq =>
          hik (hinv.slots_distinct i k hi hk hne (heq.trans hsk.symm))
        rw [hheap, load_free_other _ _ _ _ hfree hio] at hr'
        have hko : load w.heap (slot w.self k) = some rec := by rw [hsk]; exact hrec
        exact hik (hinv.ids_distinct i k r rec hi hk hne (by rw [hsk]; exact hone) hr' hko hid)
    rw [hget, hp]
  · intro heap max t d a o1 o2 r1 r2 h1 h2 hne hmax
    have hn1 : o1 ≠ NULL := load_ne_null h1
    have hreg1 := register_at (freshWorld heap max t d a) o1 r1 0 h1
      (by simp [MAX_OBSERVABLE_OBSERVERS, freshWorld, AK_init_observable]; omega)
      (slot_replicate max t d a 0) (fun j hj => absurd hj (Nat.not_lt_zero j))
    obtain ⟨w1, hw1⟩ : ∃ w1 : World, w1 =
        { freshWorld heap max t d a with
          heap := store heap o1 { r1 with observer_id := 1 }
          self :=
            { AK_init_observable max t d a with
              observer_id_counter := 1 + 1
              observers := (List.replicate max NULL).set 0 o1 } } := ⟨_, rfl⟩
    have hreg1' : AK_register_observer (freshWorld heap max t d a) o1 =
        some (Status.OK, w1) := by
      rw [hw1]
      exact hreg1
    have hnew1 : ∀ i, i < MAX_OBSERVABLE_OBSERVERS (freshWorld heap max t d a).self →
        slot (freshWorld heap max t d a).self i ≠ o1 := by
      intro i _
      rw [show slot (freshWorld heap max t d a).self i = NULL from slot_replicate max t d a i]
      exact fun h => hn1 h.symm
    have hr1 : ReachableNoDup w1 :=
      ReachableNoDup.register _ o1 _ w1 (ReachableNoDup.init heap max t d a) hnew1 hreg1'
    have hslot1 : ∀ j, slot w1.self j = if j = 0 then o1 else NULL := by
      intro j
      rw [slot_set (AK_init_observable max t d a) w1.self 0 o1 (by rw [hw1]; rfl) j,
        slot_replicate]
      have : 0 < (AK_init_observable max t d a).observers.length := by
        simp [AK_init_observable]
        omega
      simp [this]
    have hmax1 : MAX_OBSERVABLE_OBSERVERS w1.self = max := by
      rw [hw1]
      simp [MAX_OBSERVABLE_OBSERVERS, AK_init_observable]
    have hheap1 : w1.heap = store heap o1 { r1 with observer_id := 1 } := by rw [hw1]
    have hl1 : load w1.heap o1 = some { r1 with observer_id := 1 } := by
      rw [hheap1]
      exact load_store_same _ _ _ _ h1
    have hl2 : load w1.heap o2 = some r2 := by
      rw [hheap1, load_store_other _ _ _ _ (fun h => hne h.symm)]
      exact h2
    have hreg2 := register_at w1 o2 r2 1 hl2 (by omega)
      (by rw [hslot1]; simp)
      (fun j hj => by
        rw [hslot1, if_pos (by omega)]
        exact hn1)
    obtain ⟨w2, hw2⟩ : ∃ w2 : World, w2 =
        { w1 with
          heap := store w1.heap o2 { r2 with observer_id := w1.self.observer_id_counter }
          self :=
            { w1.self with
              observer_id_counter := w1.self.observer_id_counter + 1
              observers := w1.self.observers.set 1 o2 } } := ⟨_, rfl⟩
    rw [← hw2] at hreg2
    have hnew2 : ∀ i, i < MAX_OBSERVABLE_OBSERVERS w1.self → slot w1.self i ≠ o2 := by
      intro i _
      rw [hslot1]
      by_cases hi : i = 0
      · rw [if_pos hi]
        exact hne
      · rw [if_neg hi]
        exact fun h => load_ne_null h2 h.symm
    have hr2 : ReachableNoDup w2 := ReachableNoDup.register w1 o2 _ w2 hr1 hnew2 hreg2
    have hheap2 : w2.heap =
        store w1.heap o2 { r2 with observer_id := w1.self.observer_id_counter } := by rw [hw2]
    have hl21 : load w2.heap o1 = some { r1 with observer_id := 1 } := by
      rw [hheap2, load_store_other _ _ _ _ hne]
      exact hl1
    have hl22 : load w2.heap o2 =
        some { r2 with observer_id := w1.self.observer_id_counter } := by
      rw [hheap2]
      exact load_store_same _ _ _ _ hl2
    have hslot2 : slot w2.self 0 = o1 := by
      rw [slot_set w1.self w2.self 1 o2 (by rw [hw2]) 0]
      simp [hslot1]
    have hmax2 : MAX_OBSERVABLE_OBSERVERS w2.self = max := by
      rw [hw2]
      simpa [MAX_OBSERVABLE_OBSERVERS] using hmax1
    obtain ⟨p, hget, hchar, _⟩ :=
      get_observer_by_id_of_inv w2 (registryInv_of_reachableNoDup w2 hr2) 1
    have hp : p = o1 :=
      (hchar o1 hn1).mpr ⟨⟨0, by omega, hslot2⟩, _, hl21, rfl⟩
    refine ⟨[(Status.OK, 1), (Status.OK, w1.self.observer_id_counter)], w2, ?_,
      by rw [hget, hp]⟩
    simp only [registerAll, hreg1', hl1, hreg2, hl22]

theorem get_observer_by_id_finds_registered_witness :
    (load demoHeap 1 = some { observer_id := 0, AK_observer_type := 101,
                              AK_observer_type_event_handler := 7 } ∧
      load demoHeap 2 = some { observer_id := 0, AK_observer_type := 102,
                               AK_observer_type_event_handler := 7 } ∧
      (1 : Ptr) ≠ 2 ∧ 2 ≤ 2 ∧
      ∃ rs w2, registerAll
            (freshWorld demoHeap 2 50 AK_ObservableType_Enum.AK_CUSTOM_FIRST 60) [1, 2] =
          some (rs, w2) ∧
        AK_get_observer_by_id w2 1 = some (1, w2)) ∧
    (∃ w0 w', AK_register_observer demoWorld 1 = some (Status.OK, w0) ∧
      ReachableNoDup w0 ∧
      load w0.heap 1 = some { observer_id := 1, AK_observer_type := 101,
                              AK_observer_type_event_handler := 7 } ∧
      AK_unregister_observer w0 1 = some (Status.OK, w') ∧
      AK_get_observer_by_id w' 1 = some (NULL, w')) := by
  refine ⟨⟨rfl, rfl, by decide, by decide,
    get_observer_by_id_finds_registered.2.2 demoHeap 2 50
      AK_ObservableType_Enum.AK_CUSTOM_FIRST 60 1 2 _ _ rfl rfl (by decide) (by decide)⟩, ?_⟩
  have hstep : ∃ w0 w', AK_register_observer demoWorld 1 = some (Status.OK, w0) ∧
      load w0.heap 1 = some { observer_id := 1, AK_observer_type := 101,
                              AK_observer_type_event_handler := 7 } ∧
      AK_unregister_observer w0 1 = some (Status.OK, w') := ⟨_, _, rfl, rfl, rfl⟩
  obtain ⟨w0, w', h0, hl, hu⟩ := hstep
  have hreach : ReachableNoDup w0 :=
    ReachableNoDup.register demoWorld 1 _ w0 (ReachableNoDup.init demoHeap 2 50 _ 60)
      (by decide) h0
  exact ⟨w0, w', h0, hreach, hl, hu,
    get_observer_by_id_finds_registered.2.1 w0 1 _ w' hreach hl hu⟩

/-! ## The calls that only notify or look up -/

theorem notify_frame (w : World) (p t : Ptr) (d : AK_ObservableType_Enum)
    (st : Status) (w' : World) (h : AK_notify w p t d = some (st, w')) :
    w'.heap = w.heap ∧ w'.self = w.self := by
  unfold AK_notify at h
  cases hl : load w.heap p with
  | none => rw [hl] at h; simp at h
  | some rec =>
    rw [hl] at h
    by_cases hh : rec.AK_observer_type_event_handler = NULL
    · simp [hh] at h
    · simp only [hh, if_false, Option.some.injEq, Prod.mk.injEq] at h
      rw [← h.2]
      exact ⟨rfl, rfl⟩

theorem notify_observers_loop_frame :
    ∀ (n i : Nat) (w : World) (st : Status) (w' : World),
      AK_notify_observers.loop n i w = some (st, w') →
      w'.heap = w.heap ∧ w'.self = w.self := by
  intro n
  induction n with
  | zero =>
    intro i w st w' h
    simp only [AK_notify_observers.loop, Option.some.injEq, Prod.mk.injEq] at h
    rw [← h.2]
    exact ⟨rfl, rfl⟩
  | succ n ih =>
    intro i w st w' h
    unfold AK_notify_observers.loop at h
    by_cases hs : slot w.self i ≠ NULL
    · rw [if_pos hs] at h
      cases hn : AK_notify w (slot w.self i) w.self.AK_observable_type
          w.self.AK_ObservableType_Def with
      | none => rw [hn] at h; simp at h
      | some r =>
        obtain ⟨st1, w1⟩ := r
        rw [hn] at h
        obtain ⟨h1, h2⟩ := notify_frame _ _ _ _ _ _ hn
        obtain ⟨h3, h4⟩ := ih (i + 1) w1 st w' h
        exact ⟨h3.trans h1, h4.trans h2⟩
    · rw [if_neg hs] at h
      exact ih (i + 1) w st w' h

theorem notify_observers_frame (w : World) (st : Status) (w' : World)
    (h : AK_notify_observers w = some (st, w')) :
    w'.heap = w.heap ∧ w'.self = w.self :=
  notify_observers_loop_frame _ _ w st w' h

theorem notify_observer_frame (w : World) (o : Ptr) (st : Status) (w' : World)
    (h : AK_notify_observer w o = some (st, w')) :
    w'.heap = w.heap ∧ w'.self = w.self := by
  rw [AK_notify_observer, notify_observer_loop_eq] at h
  cases hf : firstIndex (fun j => decide (slot w.self j ≠ NULL ∧ slot w.self j = o))
      (MAX_OBSERVABLE_OBSERVERS w.self) 0 with
  | none =>
    rw [hf] at h
    simp only [Option.some.injEq, Prod.mk.injEq] at h
    rw [← h.2]
    exact ⟨rfl, rfl⟩
  | some k =>
    rw [hf] at h
    cases hn : AK_notify w o w.self.AK_observable_type w.self.AK_ObservableType_Def with
    | none => rw [hn] at h; simp at h
    | some r =>
      obtain ⟨st1, w1⟩ := r
      rw [hn] at h
      simp only [Option.some.injEq, Prod.mk.injEq] at h
      rw [← h.2]
      exact notify_frame _ _ _ _ _ _ hn

theorem get_observer_by_id_loop_frame (w : World) (id : Int) :
    ∀ (n i : Nat) (p : Ptr) (w' : World),
      AK_get_observer_by_id.loop w id n i = some (p, w') → w' = w := by
  intro n
  induction n with
  | zero =>
    intro i p w' h
    simp only [AK_get_observer_by_id.loop, Option.some.injEq, Prod.mk.injEq] at h
    exact h.2.symm
  | succ n ih =>
    intro i p w' h
    unfold AK_get_observer_by_id.loop at h
    by_cases hs : slot w.self i ≠ NULL
    · rw [if_pos hs] at h
      cases hl : load w.heap (slot w.self i) with
      | none => rw [hl] at h; simp at h
      | some rec =>
        rw [hl] at h
        by_cases hid : rec.observer_id = id
        · simp only [if_pos hid, Option.some.injEq, Prod.mk.injEq] at h
          exact h.2.symm
        · simp only [if_neg hid] at h
          exact ih (i + 1) p w' h
    · rw [if_neg hs] at h
      exact ih (i + 1) p w' h

theorem get_observer_by_id_frame (w : World) (id : Int) (p : Ptr) (w' : World)
    (h : AK_get_observer_by_id w id = some (p, w')) : w' = w :=
  get_observer_by_id_loop_frame w id _ _ p w' h

/-! ## The id counter along a sequence of calls -/

theorem execOp_counter (w : World) (op : Op) (r : Option Int) (w' : World)
    (h : execOp w op = some (r, w')) :
    (r = none ∧ w'.self.observer_id_counter = w.self.observer_id_counter) ∨
      ((∃ o, op = Op.register o) ∧ r = some w.self.observer_id_counter ∧
        w'.self.observer_id_counter = w.self.observer_id_counter + 1) := by
  cases op with
  | register o =>
    simp only [execOp] at h
    cases hr : AK_register_observer w o with
    | none => rw [hr] at h; simp at h
    | some res =>
      obtain ⟨st, w1⟩ := res
      rw [hr] at h
      rcases register_cases w o st w1 hr with ⟨hst, hw, _⟩ | ⟨hst, k, rec, hrec, _, _, _, hw⟩
      · subst hst
        simp only [Option.some.injEq, Prod.mk.injEq] at h
        rw [← h.1, ← h.2, hw]
        exact Or.inl ⟨rfl, rfl⟩
      · subst hst
        have hl : load w1.heap o =
            some { rec with observer_id := w.self.observer_id_counter } := by
          rw [hw]
          exact load_store_same _ _ _ _ hrec
        simp only [hl, Option.some.injEq, Prod.mk.injEq] at h
        rw [← h.1, ← h.2, hw]
        exact Or.inr ⟨⟨o, rfl⟩, rfl, rfl⟩
  | unregister o =>
    simp only [execOp] at h
    cases hr : AK_unregister_observer w o with
    | none => rw [hr] at h; simp at h
    | some res =>
      obtain ⟨st, w1⟩ := res
      rw [hr] at h
      simp only [Option.some.injEq, Prod.mk.injEq] at h
      rw [← h.1, ← h.2]
      rcases unregister_cases w o st w1 hr with ⟨_, hw, _⟩ | ⟨_, k, heap', _, _, _, _, hw⟩
      · rw [hw]
        exact Or.inl ⟨rfl, rfl⟩
      · rw [hw]
        exact Or.inl ⟨rfl, rfl⟩
  | notify_observer o =>
    simp only [execOp] at h
    cases hr : AK_notify_observer w o with
    | none => rw [hr] at h; simp at h
    | some res =>
      obtain ⟨st, w1⟩ := res
      rw [hr] at h
      simp only [Option.some.injEq, Prod.mk.injEq] at h
      rw [← h.1, ← h.2, (notify_observer_frame w o st w1 hr).2]
      exact Or.inl ⟨rfl, rfl⟩
  | notify_observers =>
    simp only [execOp] at h
    cases hr : AK_notify_observers w with
    | none => rw [hr] at h; simp at h
    | some res =>
      obtain ⟨st, w1⟩ := res
      rw [hr] at h
      simp only [Option.some.injEq, Prod.mk.injEq] at h
      rw [← h.1, ← h.2, (notify_observers_frame w st w1 hr).2]
      exact Or.inl ⟨rfl, rfl⟩
  | get_observer_by_id id =>
    simp only [execOp] at h
    cases hr : AK_get_observer_by_id w id with
    | none => rw [hr] at h; simp at h
    | some res =>
      obtain ⟨p, w1⟩ := res
      rw [hr] at h
      simp only [Option.some.injEq, Prod.mk.injEq] at h
      rw [← h.1, ← h.2, get_observer_by_id_frame w id p w1 hr]
      exact Or.inl ⟨rfl, rfl⟩

theorem runOps_ids :
    ∀ (ops : List Op) (w : World) (ids : List Int) (w' : World),
      runOps w ops = some (ids, w') →
      w'.self.observer_id_counter = w.self.observer_id_counter + ids.length ∧
        (∀ id ∈ ids, w.self.observer_id_counter ≤ id ∧ id < w'.self.observer_id_counter) ∧
        ids.Pairwise (fun a b => a < b) := by
  intro ops
  induction ops with
  | nil =>
    intro w ids w' h
    simp only [runOps, Option.some.injEq, Prod.mk.injEq] at h
    rw [← h.1, ← h.2]
    simp
  | cons op ops ih =>
    intro w ids w' h
    unfold runOps at h
    cases he : execOp w op with
    | none => rw [he] at h; simp at h
    | some res =>
      obtain ⟨r, w1⟩ := res
      rw [he] at h
      cases hrun : runOps w1 ops with
      | none => simp [hrun] at h
      | some res2 =>
        obtain ⟨ids1, w2⟩ := res2
        simp only [hrun, Option.some.injEq, Prod.mk.injEq] at h
        obtain ⟨hids, hw2⟩ := h
        subst hw2
        obtain ⟨hc, hr, hp⟩ := ih w1 ids1 w2 hrun
        rcases execOp_counter w op r w1 he with ⟨hnone, hcnt⟩ | ⟨_, hsome, hcnt⟩
        · subst hnone
          simp only [Option.toList, List.nil_append] at hids
          subst hids
          rw [hcnt] at hc hr
          exact ⟨hc, hr, hp⟩
        · subst hsome
          simp only [Option.toList, List.singleton_append] at hids
          subst hids
          rw [hcnt] at hc hr
          refine ⟨?_, ?_, ?_⟩
          · rw [hc]
            simp only [List.length_cons, Nat.cast_succ]
            ring
          · intro id hid
            rcases List.mem_cons.mp hid with heq | hmem
            · rw [heq, hc]
              constructor
              · exact le_refl _
              · have : (0 : Int) ≤ (ids1.length : Int) := Int.natCast_nonneg _
                omega
            · obtain ⟨h1, h2⟩ := hr id hmem
              exact ⟨by omega, h2⟩
          · rw [List.pairwise_cons]
            refine ⟨?_, hp⟩
            intro id hmem
            have := (hr id hmem).1
            omega

/-- Claim C11. Along every sequence of register, unregister, notify-one,
notify-all and lookup calls that runs to completion, each call leaves
`observer_id_counter` unchanged except a registration returning `OK`, which
hands out the old counter value as id and adds exactly 1.  So the counter never
decreases, and the ids handed out are strictly increasing, pairwise distinct and
lie between the counter before and the counter after the sequence, whatever
unregistrations happen in between. -/
theorem ids_never_reused (w : World) (ops : List Op) (ids : List Int) (w' : World)
    (h : runOps w ops = some (ids, w')) :
    w.self.observer_id_counter ≤ w'.self.observer_id_counter ∧
      w'.self.observer_id_counter = w.self.observer_id_counter + ids.length ∧
      ids.Pairwise (fun a b => a < b) ∧
      ids.Nodup ∧
      (∀ id ∈ ids, w.self.observer_id_counter ≤ id ∧ id < w'.self.observer_id_counter) ∧
      (∀ (v : World) (op : Op) (r : Option Int) (v' : World),
        execOp v op = some (r, v') →
        (r = none ∧ v'.self.observer_id_counter = v.self.observer_id_counter) ∨
          ((∃ o, op = Op.register o) ∧ r = some v.self.observer_id_counter ∧
            v'.self.observer_id_counter = v.self.observer_id_counter + 1)) := by
  obtain ⟨hc, hr, hp⟩ := runOps_ids ops w ids w' h
  refine ⟨?_, hc, hp, ?_, hr, execOp_counter⟩
  · have : (0 : Int) ≤ (ids.length : Int) := Int.natCast_nonneg _
    omega
  · exact hp.imp (fun hab => ne_of_lt hab)

theorem ids_never_reused_witness :
    ∃ w', runOps demoWorld
          [Op.register 1, Op.register 2, Op.unregister 1, Op.notify_observers,
            Op.get_observer_by_id 2, Op.notify_observer 2, Op.register 3] =
          some ([1, 2, 3], w') ∧
      demoWorld.self.observer_id_counter ≤ w'.self.observer_id_counter ∧
      w'.self.observer_id_counter =
        demoWorld.self.observer_id_counter + ([1, 2, 3] : List Int).length ∧
      ([1, 2, 3] : List Int).Pairwise (fun a b => a < b) ∧
      ([1, 2, 3] : List Int).Nodup ∧
      (∀ id ∈ ([1, 2, 3] : List Int),
        demoWorld.self.observer_id_counter ≤ id ∧ id < w'.self.observer_id_counter) ∧
      (∀ (v : World) (op : Op) (r : Option Int) (v' : World),
        execOp v op = some (r, v') →
        (r = none ∧ v'.self.observer_id_counter = v.self.observer_id_counter) ∨
          ((∃ o, op = Op.register o) ∧ r = some v.self.observer_id_counter ∧
            v'.self.observer_id_counter = v.self.observer_id_counter + 1)) := by
  obtain ⟨w', h⟩ : ∃ w', runOps demoWorld
      [Op.register 1, Op.register 2, Op.unregister 1, Op.notify_observers,
        Op.get_observer_by_id 2, Op.notify_observer 2, Op.register 3] =
      some ([1, 2, 3], w') := ⟨_, rfl⟩
  exact ⟨w', h, ids_never_reused demoWorld _ _ w' h⟩

/-! ## The id invariant of all reachable states -/

theorem load_null (heap : Heap) : load heap NULL = none := by
  simp [load]

theorem idInv_init (heap : Heap) (max : Nat) (t : Ptr)
    (d : AK_ObservableType_Enum) (a : Ptr) : IdInv (freshWorld heap max t d a) where
  counter_pos := by simp [freshWorld, AK_init_observable]
  id_range := fun i rec _ h => by
    rw [show slot (freshWorld heap max t d a).self i = NULL from slot_replicate max t d a i,
      load_null] at h
    simp at h
  id_inj := fun i j _ _ _ _ _ _ _ => by
    rw [show slot (freshWorld heap max t d a).self i = NULL from slot_replicate max t d a i,
      show slot (freshWorld heap max t d a).self j = NULL from slot_replicate max t d a j]

theorem idInv_register (w : World) (o : Ptr) (st : Status) (w' : World)
    (hinv : IdInv w) (h : AK_register_observer w o = some (st, w')) : IdInv w' := by
  rcases register_cases w o st w' h with ⟨_, hw, _⟩ | ⟨_, k, rec, hrec, hk, _, _, hw⟩
  · rw [hw]
    exact hinv
  have hklt : k < w.self.observers.length := by
    simpa [MAX_OBSERVABLE_OBSERVERS] using hk
  have hslot : ∀ j, slot w'.self j = if j = k then o else slot w.self j := by
    intro j
    rw [slot_set w.self w'.self k o (by rw [hw]) j]
    simp [hklt]
  have hmax : MAX_OBSERVABLE_OBSERVERS w'.self = MAX_OBSERVABLE_OBSERVERS w.self := by
    rw [hw]
    simp [MAX_OBSERVABLE_OBSERVERS]
  have hcnt : w'.self.observer_id_counter = w.self.observer_id_counter + 1 := by rw [hw]
  have hheap : w'.heap =
      store w.heap o { rec with observer_id := w.self.observer_id_counter } := by rw [hw]
  have hpos := hinv.counter_pos
  have hkey : ∀ i r, i < MAX_OBSERVABLE_OBSERVERS w.self →
      load w'.heap (slot w'.self i) = some r →
      (slot w'.self i = o ∧ r.observer_id = w.self.observer_id_counter) ∨
        (slot w'.self i = slot w.self i ∧
          r.observer_id < w.self.observer_id_counter ∧ 1 ≤ r.observer_id ∧
          load w.heap (slot w.self i) = some r) := by
    intro i r hi hr
    by_cases hp : slot w'.self i = o
    · left
      rw [hp, hheap, load_store_same _ _ _ _ hrec] at hr
      exact ⟨hp, by rw [← Option.some.inj hr]⟩
    · right
      have hik : i ≠ k := by
        intro hik
        rw [hslot i, if_pos hik] at hp
        exact hp rfl
      have hs : slot w'.self i = slot w.self i := by rw [hslot i, if_neg hik]
      rw [hs] at hp hr
      rw [hheap, load_store_other _ _ _ _ hp] at hr
      obtain ⟨h1, h2⟩ := hinv.id_range i r hi hr
      exact ⟨hs, h2, h1, hr⟩
  refine ⟨by omega, ?_, ?_⟩
  · intro i r hi hr
    rw [hmax] at hi
    rcases hkey i r hi hr with ⟨_, hid⟩ | ⟨_, h2, h1, _⟩
    · rw [hid, hcnt]
      omega
    · rw [hcnt]
      omega
  · intro i j ri rj hi hj hli hlj hid
    rw [hmax] at hi hj
    rcases hkey i ri hi hli with ⟨hpi, hi1⟩ | ⟨hsi, hi2, _, hli'⟩ <;>
      rcases hkey j rj hj hlj with ⟨hpj, hj1⟩ | ⟨hsj, hj2, _, hlj'⟩
    · rw [hpi, hpj]
    · omega
    · omega
    · rw [hsi, hsj]
      exact hinv.id_inj i j ri rj hi hj hli' hlj' hid

theorem load_free_sub (heap heap' : Heap) (o p : Ptr) (r : AK_observer)
    (h : free heap o = some heap') (hr : load heap' p = some r) :
    load heap p = some r := by
  by_cases hp : p = o
  · subst hp
    exfalso
    unfold free at h
    by_cases h0 : p = NULL
    · rw [h0, load_null] at hr
      simp at hr
    · rw [if_neg h0] at h
      cases hh : heap p with
      | none => rw [hh] at h; simp at h
      | some r0 =>
        rw [hh] at h
        simp only [Option.some.injEq] at h
        rw [← h] at hr
        simp [load, h0] at hr
  · rw [← load_free_other heap heap' o p h hp]
    exact hr

theorem idInv_unregister (w : World) (o : Ptr) (st : Status) (w' : World)
    (hinv : IdInv w) (h : AK_unregister_observer w o = some (st, w')) : IdInv w' := by
  rcases unregister_cases w o st w' h with ⟨_, hw, _⟩ | ⟨_, k, heap', hfree, hk, _, _, hw⟩
  · rw [hw]
    exact hinv
  have hklt : k < w.self.observers.length := by
    simpa [MAX_OBSERVABLE_OBSERVERS] using hk
  have hslot : ∀ j, slot w'.self j = if j = k then NULL else slot w.self j := by
    intro j
    rw [slot_set w.self w'.self k NULL (by rw [hw]) j]
    simp [hklt]
  have hmax : MAX_OBSERVABLE_OBSERVERS w'.self = MAX_OBSERVABLE_OBSERVERS w.self := by
    rw [hw]
    simp [MAX_OBSERVABLE_OBSERVERS]
  have hcnt : w'.self.observer_id_counter = w.self.observer_id_counter := by rw [hw]
  have hheap : w'.heap = heap' := by rw [hw]
  have hkey : ∀ i r, load w'.heap (slot w'.self i) = some r →
      slot w'.self i = slot w.self i ∧ load w.heap (slot w.self i) = some r := by
    intro i r hr
    have hik : i ≠ k := by
      intro hik
      rw [hslot i, if_pos hik, load_null] at hr
      simp at hr
    have hs : slot w'.self i = slot w.self i := by rw [hslot i, if_neg hik]
    rw [hs, hheap] at hr
    exact ⟨hs, load_free_sub _ _ _ _ _ hfree hr⟩
  refine ⟨by rw [hcnt]; exact hinv.counter_pos, ?_, ?_⟩
  · intro i r hi hr
    rw [hmax] at hi
    rw [hcnt]
    exact hinv.id_range i r hi (hkey i r hr).2
  · intro i j ri rj hi hj hli hlj hid
    rw [hmax] at hi hj
    obtain ⟨hsi, hli'⟩ := hkey i ri hli
    obtain ⟨hsj, hlj'⟩ := hkey j rj hlj
    rw [hsi, hsj]
    exact hinv.id_inj i j ri rj hi hj hli' hlj' hid

theorem idInv_of_reachable (w : World) (h : Reachable w) : IdInv w := by
  induction h with
  | init heap max t d a => exact idInv_init heap max t d a
  | register w o st w' _ hstep ih => exact idInv_register w o st w' ih hstep
  | unregister w o st w' _ hstep ih => exact idInv_unregister w o st w' ih hstep

/-- Claim C12, counterexample. On the fresh two-slot sample observable, observer 1
is registered twice (both calls return `OK`).  The state is reachable by
register calls, both slots are occupied, and the observers they hold have the
same id 2: two slots match one id. -/
theorem duplicate_registration_shares_id :
    ∃ w0 w1 : World,
      AK_register_observer demoWorld 1 = some (Status.OK, w0) ∧
      AK_register_observer w0 1 = some (Status.OK, w1) ∧
      Reachable w1 ∧
      slot w1.self 0 ≠ NULL ∧ slot w1.self 1 ≠ NULL ∧
      (load w1.heap (slot w1.self 0)).map (fun rec => rec.observer_id) = some 2 ∧
      (load w1.heap (slot w1.self 1)).map (fun rec => rec.observer_id) = some 2 := by
  have hstep : ∃ w0 w1 : World,
      AK_register_observer demoWorld 1 = some (Status.OK, w0) ∧
      AK_register_observer w0 1 = some (Status.OK, w1) ∧
      slot w1.self 0 ≠ NULL ∧ slot w1.self 1 ≠ NULL ∧
      (load w1.heap (slot w1.self 0)).map (fun rec => rec.observer_id) = some 2 ∧
      (load w1.heap (slot w1.self 1)).map (fun rec => rec.observer_id) = some 2 :=
    ⟨_, _, rfl, rfl, by decide, by decide, rfl, rfl⟩
  obtain ⟨w0, w1, h0, h1, hrest⟩ := hstep
  exact ⟨w0, w1, h0, h1,
    Reachable.register w0 1 _ w1
      (Reachable.register demoWorld 1 _ w0 (Reachable.init demoHeap 2 50 _ 60) h0) h1,
    hrest⟩

/-- Claim C12, amended. In every state reachable from `AK_init_observable` by
register and unregister calls, every observer stored in a slot has a nonzero id
and stored observers with the same id are one and the same observer.  When in
addition no handle is registered while it already is in a slot, every occupied
slot holds a live observer with a nonzero id and no two occupied slots hold
observers with the same id. -/
theorem stored_ids_nonzero_and_distinct :
    (∀ w : World, Reachable w →
      (∀ i rec, i < MAX_OBSERVABLE_OBSERVERS w.self →
        load w.heap (slot w.self i) = some rec → rec.observer_id ≠ 0) ∧
      (∀ i j ri rj, i < MAX_OBSERVABLE_OBSERVERS w.self →
        j < MAX_OBSERVABLE_OBSERVERS w.self →
        load w.heap (slot w.self i) = some ri → load w.heap (slot w.self j) = some rj →
        ri.observer_id = rj.observer_id → slot w.self i = slot w.self j)) ∧
    (∀ w : World, ReachableNoDup w →
      (∀ i, i < MAX_OBSERVABLE_OBSERVERS w.self → slot w.self i ≠ NULL →
        ∃ rec, load w.heap (slot w.self i) = some rec ∧ rec.observer_id ≠ 0) ∧
      (∀ i j ri rj, i < MAX_OBSERVABLE_OBSERVERS w.self →
        j < MAX_OBSERVABLE_OBSERVERS w.self →
        slot w.self i ≠ NULL → slot w.self j ≠ NULL →
        load w.heap (slot w.self i) = some ri → load w.heap (slot w.self j) = some rj →
        ri.observer_id = rj.observer_id → i = j)) := by
  constructor
  · intro w hr
    have hinv := idInv_of_reachable w hr
    refine ⟨?_, hinv.id_inj⟩
    intro i rec hi hl
    have := (hinv.id_range i rec hi hl).1
    omega
  · intro w hr
    have hinv := registryInv_of_reachableNoDup w hr
    refine ⟨?_, hinv.ids_distinct⟩
    intro i hi hne
    obtain ⟨rec, hl, h1, _⟩ := hinv.live i hi hne
    exact ⟨rec, hl, by omega⟩

theorem stored_ids_nonzero_and_distinct_witness :
    ∃ w0 w1 : World,
      AK_register_observer demoWorld 1 = some (Status.OK, w0) ∧
      AK_register_observer w0 2 = some (Status.OK, w1) ∧
      ReachableNoDup w1 ∧
      (∀ i, i < MAX_OBSERVABLE_OBSERVERS w1.self → slot w1.self i ≠ NULL →
        ∃ rec, load w1.heap (slot w1.self i) = some rec ∧ rec.observer_id ≠ 0) ∧
      (∀ i j ri rj, i < MAX_OBSERVABLE_OBSERVERS w1.self →
        j < MAX_OBSERVABLE_OBSERVERS w1.self →
        slot w1.self i ≠ NULL → slot w1.self j ≠ NULL →
        load w1.heap (slot w1.self i) = some ri → load w1.heap (slot w1.self j) = some rj →
        ri.observer_id = rj.observer_id → i = j) := by
  have hstep : ∃ w0 w1 : World,
      AK_register_observer demoWorld 1 = some (Status.OK, w0) ∧
      (∀ i, i < MAX_OBSERVABLE_OBSERVERS w0.self → slot w0.self i ≠ 2) ∧
      AK_register_observer w0 2 = some (Status.OK, w1) :=
    ⟨_, _, rfl, by decide, rfl⟩
  obtain ⟨w0, w1, h0, hnew, h1⟩ := hstep
  have hreach : ReachableNoDup w1 :=
    ReachableNoDup.register w0 2 _ w1
      (ReachableNoDup.register demoWorld 1 _ w0 (ReachableNoDup.init demoHeap 2 50 _ 60)
        (by decide) h0) hnew h1
  exact ⟨w0, w1, h0, h1, hreach, stored_ids_nonzero_and_distinct.2 w1 hreach⟩

/-- Claim C17. In every state reachable from `AK_init_observable` by register
and unregister calls, duplicate registrations included, the counter is at least
1 and every observer stored in a slot has an id `i` with
`1 ≤ i < observer_id_counter`.  When no handle is registered while it already is
in a slot, every occupied slot holds such an observer. -/
theorem stored_ids_below_counter :
    (∀ w : World, Reachable w →
      1 ≤ w.self.observer_id_counter ∧
      ∀ i rec, i < MAX_OBSERVABLE_OBSERVERS w.self →
        load w.heap (slot w.self i) = some rec →
        1 ≤ rec.observer_id ∧ rec.observer_id < w.self.observer_id_counter) ∧
    (∀ w : World, ReachableNoDup w →
      ∀ i, i < MAX_OBSERVABLE_OBSERVERS w.self → slot w.self i ≠ NULL →
        ∃ rec, load w.heap (slot w.self i) = some rec ∧
          1 ≤ rec.observer_id ∧ rec.observer_id < w.self.observer_id_counter) := by
  constructor
  · intro w hr
    have hinv := idInv_of_reachable w hr
    exact ⟨hinv.counter_pos, hinv.id_range⟩
  · intro w hr
    exact (registryInv_of_reachableNoDup w hr).live

theorem stored_ids_below_counter_witness :
    ∃ w0 w1 : World,
      AK_register_observer demoWorld 1 = some (Status.OK, w0) ∧
      AK_register_observer w0 1 = some (Status.OK, w1) ∧
      w1.self.observers = [1, 1] ∧
      Reachable w1 ∧
      1 ≤ w1.self.observer_id_counter ∧
      ∀ i rec, i < MAX_OBSERVABLE_OBSERVERS w1.self →
        load w1.heap (slot w1.self i) = some rec →
        1 ≤ rec.observer_id ∧ rec.observer_id < w1.self.observer_id_counter := by
  have hstep : ∃ w0 w1 : World,
      AK_register_observer demoWorld 1 = some (Status.OK, w0) ∧
      AK_register_observer w0 1 = some (Status.OK, w1) ∧
      w1.self.observers = [1, 1] := ⟨_, _, rfl, rfl, rfl⟩
  obtain ⟨w0, w1, h0, h1, hobs⟩ := hstep
  have hreach : Reachable w1 :=
    Reachable.register w0 1 _ w1
      (Reachable.register demoWorld 1 _ w0 (Reachable.init demoHeap 2 50 _ 60) h0) h1
  exact ⟨w0, w1, h0, h1, hobs, hreach, stored_ids_below_counter.1 w1 hreach⟩

/-! ## `AK_destroy_observer` -/

theorem destroy_observer_not_ok (heap : Heap) (p : Ptr) (hp : p ≠ NULL) (heap' : Heap) :
    AK_destroy_observer heap p ≠ some (Status.NOT_OK, heap') := by
  unfold AK_destroy_observer
  rw [if_pos hp]
  cases free heap p with
  | none => simp
  | some h1 => simp

/-- Claim C13, evaluated. Releasing the live sample observer 1 returns `OK` and
frees it.  Releasing the same handle again does not return `NOT_OK`: the handle
is still non-null, so the call passes the null test and frees the observer a
second time.  In fact no call with a non-null handle ever returns `NOT_OK`. -/
theorem destroy_observer_twice_frees_twice :
    (∃ heap', AK_destroy_observer demoHeap 1 = some (Status.OK, heap') ∧
      heap' 1 = none ∧
      AK_destroy_observer heap' 1 = none ∧
      ∀ heap'', AK_destroy_observer heap' 1 ≠ some (Status.NOT_OK, heap'')) ∧
    (∀ (heap : Heap) (p : Ptr) (heap' : Heap), p ≠ NULL →
      AK_destroy_observer heap p ≠ some (Status.NOT_OK, heap')) :=
  ⟨⟨_, rfl, rfl, rfl, fun heap'' => destroy_observer_not_ok _ 1 (by decide) heap''⟩,
    fun heap p heap' hp => destroy_observer_not_ok heap p hp heap'⟩

/-! ## `AK_init_observable` -/

theorem get_observer_by_id_fresh (heap : Heap) (max : Nat) (t : Ptr)
    (d : AK_ObservableType_Enum) (a : Ptr) (id : Int) :
    AK_get_observer_by_id (freshWorld heap max t d a) id =
      some (NULL, freshWorld heap max t d a) := by
  obtain ⟨p, hget, _, hnull⟩ :=
    get_observer_by_id_of_inv _ (registryInv_init heap max t d a) id
  have hp : p = NULL := by
    rw [hnull]
    intro i _ hne
    exact absurd (slot_replicate max t d a i) hne
  rw [hget, hp]

theorem notify_observers_fresh (heap : Heap) (max : Nat) (t : Ptr)
    (d : AK_ObservableType_Enum) (a : Ptr) :
    AK_notify_observers (freshWorld heap max t d a) =
      some (Status.OK, freshWorld heap max t d a) := by
  obtain ⟨cs, h1, h2⟩ := notify_loop_spec (List.replicate max NULL) []
    (freshWorld heap max t d a) (by simp [freshWorld, AK_init_observable])
    (fun p hp hne => absurd (List.eq_of_mem_replicate hp) hne)
  rw [List.filter_replicate_of_neg (by simp)] at h2
  cases h2
  simp only [List.length_replicate, List.length_nil, List.append_nil] at h1
  rw [AK_notify_observers]
  simpa [MAX_OBSERVABLE_OBSERVERS, freshWorld, AK_init_observable] using h1

/-- Claim C14. For every subject context, kind and custom action (and every
capacity), `AK_init_observable` returns an observable whose slots are all
`NULL`, whose counter is 1 and whose `AK_observable_type`,
`AK_ObservableType_Def` and `AK_run_custom_action` are the arguments; on this
fresh observable the lookup of any id returns `NULL` and notify-all returns
`OK` without calling any handler (the state, call log included, is
unchanged). -/
theorem init_observable_is_empty (heap : Heap) (max : Nat) (t : Ptr)
    (d : AK_ObservableType_Enum) (a : Ptr) :
    MAX_OBSERVABLE_OBSERVERS (AK_init_observable max t d a) = max ∧
      (∀ i, slot (AK_init_observable max t d a) i = NULL) ∧
      occupied (AK_init_observable max t d a) = [] ∧
      (AK_init_observable max t d a).observer_id_counter = 1 ∧
      (AK_init_observable max t d a).AK_observable_type = t ∧
      (AK_init_observable max t d a).AK_ObservableType_Def = d ∧
      (AK_init_observable max t d a).AK_run_custom_action = a ∧
      (∀ id, AK_get_observer_by_id (freshWorld heap max t d a) id =
        some (NULL, freshWorld heap max t d a)) ∧
      AK_notify_observers (freshWorld heap max t d a) =
        some (Status.OK, freshWorld heap max t d a) ∧
      (freshWorld heap max t d a).calls = [] := by
  refine ⟨by simp [MAX_OBSERVABLE_OBSERVERS, AK_init_observable],
    slot_replicate max t d a, ?_, rfl, rfl, rfl, rfl,
    get_observer_by_id_fresh heap max t d a, notify_observers_fresh heap max t d a, rfl⟩
  simp [occupied, AK_init_observable]

/-! ## The null handle -/

theorem slot_mem (self : AK_observable) (i : Nat)
    (h : i < MAX_OBSERVABLE_OBSERVERS self) : slot self i ∈ self.observers := by
  have hi : i < self.observers.length := h
  rw [slot, List.getD_eq_getElem _ _ hi]
  exact List.getElem_mem hi

theorem set_null_of_slot_null (w : World) (k : Nat)
    (hk : k < MAX_OBSERVABLE_OBSERVERS w.self) (hs : slot w.self k = NULL) :
    ({ w with
       heap := w.heap
       self := { w.self with observers := w.self.observers.set k NULL } } : World) = w := by
  have hi : k < w.self.observers.length := hk
  have hget : w.self.observers[k] = NULL := by
    rw [slot, List.getD_eq_getElem _ _ hi] at hs
    exact hs
  have hset : w.self.observers.set k NULL = w.self.observers := by
    apply List.ext_getElem?
    intro j
    rw [List.getElem?_set]
    by_cases hkj : k = j
    · subst hkj
      simp [hi, hget]
    · simp [hkj]
  rw [hset]

theorem unregister_null_of_empty (w : World)
    (hempty : ∃ i, i < MAX_OBSERVABLE_OBSERVERS w.self ∧ slot w.self i = NULL) :
    AK_unregister_observer w NULL = some (Status.OK, w) := by
  obtain ⟨i, hi, hs⟩ := hempty
  obtain ⟨k, hk⟩ := firstIndex_of_exists (p := fun j => decide (NULL = slot w.self j))
    (n := MAX_OBSERVABLE_OBSERVERS w.self) (Nat.zero_le i) (by omega) (by simpa using hs.symm)
  obtain ⟨_, hk2, hk3, _⟩ := firstIndex_some hk
  have hsk : slot w.self k = NULL := by
    simp only [decide_eq_true_eq] at hk3
    exact hk3.symm
  rw [AK_unregister_observer, unregister_loop_eq, hk]
  simp only [hsk, free, if_true]
  rw [set_null_of_slot_null w k (by omega) hsk]

theorem notify_observer_null (w : World) :
    AK_notify_observer w NULL = some (Status.NOT_OK, w) := by
  rw [AK_notify_observer, notify_observer_loop_eq, firstIndex_of_all_false]
  intro j _ _
  simp only [decide_eq_false_iff_not, not_and]
  exact fun h => h

/-- Claim C19. `AK_unregister_observer` called with the null handle returns `OK`
when some slot is empty and leaves the whole state (slot table, counter, heap)
unchanged; it returns `NOT_OK`, again without any change, when every slot is
occupied, and only then.  `AK_notify_observer` called with the null handle
always returns `NOT_OK` and calls no handler. -/
theorem null_handle_unregister_and_notify (w : World) :
    ((∃ i, i < MAX_OBSERVABLE_OBSERVERS w.self ∧ slot w.self i = NULL) →
        AK_unregister_observer w NULL = some (Status.OK, w)) ∧
      ((∀ i, i < MAX_OBSERVABLE_OBSERVERS w.self → slot w.self i ≠ NULL) →
        AK_unregister_observer w NULL = some (Status.NOT_OK, w)) ∧
      (∀ st w', AK_unregister_observer w NULL = some (st, w') →
        (st = Status.NOT_OK ↔
          ∀ i, i < MAX_OBSERVABLE_OBSERVERS w.self → slot w.self i ≠ NULL)) ∧
      AK_notify_observer w NULL = some (Status.NOT_OK, w) := by
  refine ⟨unregister_null_of_empty w, unregister_absent w NULL, ?_, notify_observer_null w⟩
  intro st w' h
  constructor
  · intro hst i hi hs
    rw [unregister_null_of_empty w ⟨i, hi, hs⟩] at h
    simp only [Option.some.injEq, Prod.mk.injEq] at h
    rw [hst] at h
    exact absurd h.1 (by decide)
  · intro hfull
    rw [unregister_absent w NULL hfull] at h
    simp only [Option.some.injEq, Prod.mk.injEq] at h
    exact h.1.symm

theorem null_handle_unregister_and_notify_witness :
    (∃ i, i < MAX_OBSERVABLE_OBSERVERS demoWorld.self ∧ slot demoWorld.self i = NULL) ∧
      AK_unregister_observer demoWorld NULL = some (Status.OK, demoWorld) ∧
      (∀ i, i < MAX_OBSERVABLE_OBSERVERS demoFull.self → slot demoFull.self i ≠ NULL) ∧
      AK_unregister_observer demoFull NULL = some (Status.NOT_OK, demoFull) ∧
      AK_notify_observer demoFull NULL = some (Status.NOT_OK, demoFull) :=
  have hempty : ∃ i, i < MAX_OBSERVABLE_OBSERVERS demoWorld.self ∧
      slot demoWorld.self i = NULL := ⟨0, by decide, rfl⟩
  have hfull : ∀ i, i < MAX_OBSERVABLE_OBSERVERS demoFull.self →
      slot demoFull.self i ≠ NULL := by decide
  ⟨hempty, (null_handle_unregister_and_notify demoWorld).1 hempty,
    hfull, (null_handle_unregister_and_notify demoFull).2.1 hfull,
    (null_handle_unregister_and_notify demoFull).2.2.2⟩

/-! ## Notification and lookup do not change the registry -/

theorem notify_observer_returns (w : World) (o : Ptr)
    (hlive : ∀ p ∈ w.self.observers, p ≠ NULL →
      ∃ rec, load w.heap p = some rec ∧ rec.AK_observer_type_event_handler ≠ NULL) :
    ∃ st w', AK_notify_observer w o = some (st, w') := by
  rw [AK_notify_observer, notify_observer_loop_eq]
  cases hf : firstIndex (fun j => decide (slot w.self j ≠ NULL ∧ slot w.self j = o))
      (MAX_OBSERVABLE_OBSERVERS w.self) 0 with
  | none => exact ⟨_, _, rfl⟩
  | some k =>
    obtain ⟨_, hk, hm, _⟩ := firstIndex_some hf
    simp only [decide_eq_true_eq] at hm
    obtain ⟨rec, hrec, hh⟩ := hlive (slot w.self k) (slot_mem w.self k (by omega)) hm.1
    rw [hm.2] at hrec
    simp only [notify_live w o _ _ rec hrec hh]
    exact ⟨_, _, rfl⟩

theorem get_observer_by_id_returns (w : World) (id : Int)
    (hlive : ∀ p ∈ w.self.observers, p ≠ NULL → ∃ rec, load w.heap p = some rec) :
    ∃ p, AK_get_observer_by_id w id = some (p, w) := by
  have hloop := get_observer_by_id_loop_eq w id (MAX_OBSERVABLE_OBSERVERS w.self) 0
    (fun j _ hj hne => hlive _ (slot_mem w.self j (by omega)) hne)
  rw [AK_get_observer_by_id, hloop]
  cases firstIndex (idMatches w id) (MAX_OBSERVABLE_OBSERVERS w.self) 0 with
  | none => exact ⟨_, rfl⟩
  | some k => exact ⟨_, rfl⟩

/-- Claim C20. `AK_notify_observers`, `AK_notify_observer` and
`AK_get_observer_by_id` are read-only on the registry: whenever such a call
returns, the heap of observers (so every observer's id) and the observable (slot
table, counter, subject context, kind) are the same before and after; only the
call log can grow.  When every occupied slot holds a live observer with a
handler, all three calls do return, for every argument. -/
theorem notify_and_lookup_are_read_only (w : World) :
    (∀ st w', AK_notify_observers w = some (st, w') →
        w'.heap = w.heap ∧ w'.self = w.self) ∧
      (∀ o st w', AK_notify_observer w o = some (st, w') →
        w'.heap = w.heap ∧ w'.self = w.self) ∧
      (∀ id p w', AK_get_observer_by_id w id = some (p, w') → w' = w) ∧
      ((∀ p ∈ w.self.observers, p ≠ NULL →
          ∃ rec, load w.heap p = some rec ∧ rec.AK_observer_type_event_handler ≠ NULL) →
        (∃ st w', AK_notify_observers w = some (st, w')) ∧
        (∀ o, ∃ st w', AK_notify_observer w o = some (st, w')) ∧
        (∀ id, ∃ p, AK_get_observer_by_id w id = some (p, w))) := by
  refine ⟨notify_observers_frame w, notify_observer_frame w, get_observer_by_id_frame w, ?_⟩
  intro hlive
  refine ⟨?_, fun o => notify_observer_returns w o hlive,
    fun id => get_observer_by_id_returns w id
      (fun p hp hne => (hlive p hp hne).imp fun _ h => h.1)⟩
  obtain ⟨cs, h1, _⟩ := notify_loop_spec w.self.observers [] w (by simp) hlive
  exact ⟨_, _, h1⟩

theorem notify_and_lookup_are_read_only_witness :
    (∀ p ∈ demoFull.self.observers, p ≠ NULL →
        ∃ rec, load demoFull.heap p = some rec ∧
          rec.AK_observer_type_event_handler ≠ NULL) ∧
      (∃ st w', AK_notify_observers demoFull = some (st, w') ∧
        w'.heap = demoFull.heap ∧ w'.self = demoFull.self) ∧
      (∃ st w', AK_notify_observer demoFull 2 = some (st, w') ∧
        w'.heap = demoFull.heap ∧ w'.self = demoFull.self) ∧
      (∃ p, AK_get_observer_by_id demoFull 2 = some (p, demoFull)) := by
  have hlive : ∀ p ∈ demoFull.self.observers, p ≠ NULL →
      ∃ rec, load demoFull.heap p = some rec ∧
        rec.AK_observer_type_event_handler ≠ NULL := by
    intro p hp _
    simp only [demoFull, List.mem_cons, List.mem_singleton, List.not_mem_nil, or_false] at hp
    rcases hp with rfl | rfl
    · exact ⟨_, rfl, by decide⟩
    · exact ⟨_, rfl, by decide⟩
  obtain ⟨hall, hone, _, hdef⟩ := notify_and_lookup_are_read_only demoFull
  obtain ⟨⟨st, w', h1⟩, h2, h3⟩ := hdef hlive
  obtain ⟨st2, w2, h4⟩ := h2 2
  exact ⟨hlive, ⟨st, w', h1, hall st w' h1⟩, ⟨st2, w2, h4, hone 2 st2 w2 h4⟩, h3 2⟩

/-! ## Tools for scenarios -/

theorem register_shape (w : World) (o : Ptr) (rec : AK_observer) (pre rest : List Ptr)
    (hobs : w.self.observers = pre ++ NULL :: rest)
    (hpre : ∀ p ∈ pre, p ≠ NULL)
    (hrec : load w.heap o = some rec) :
    ∃ w', AK_register_observer w o = some (Status.OK, w') ∧
      w'.heap = store w.heap o { rec with observer_id := w.self.observer_id_counter } ∧
      w'.self.observers = pre ++ o :: rest ∧
      w'.self.observer_id_counter = w.self.observer_id_counter + 1 ∧
      w'.self.AK_observable_type = w.self.AK_observable_type ∧
      w'.self.AK_ObservableType_Def = w.self.AK_ObservableType_Def ∧
      w'.calls = w.calls := by
  have hreg := register_at w o rec pre.length hrec
    (by simp [MAX_OBSERVABLE_OBSERVERS, hobs])
    (slot_append_mid _ _ _ _ hobs)
    (fun j hj => hpre _ (slot_append_left _ _ _ _ hobs hj))
  refine ⟨_, hreg, rfl, ?_, rfl, rfl, rfl, rfl⟩
  simp [hobs]

theorem unregister_shape (w : World) (o : Ptr) (rec : AK_observer) (pre rest : List Ptr)
    (hobs : w.self.observers = pre ++ o :: rest)
    (hpre : ∀ p ∈ pre, p ≠ o)
    (hrec : load w.heap o = some rec) :
    ∃ w', AK_unregister_observer w o = some (Status.OK, w') ∧
      w'.heap = (fun q => if q = o then none else w.heap q) ∧
      w'.self.observers = pre ++ NULL :: rest ∧
      w'.self.observer_id_counter = w.self.observer_id_counter ∧
      w'.self.AK_observable_type = w.self.AK_observable_type ∧
      w'.self.AK_ObservableType_Def = w.self.AK_ObservableType_Def ∧
      w'.calls = w.calls := by
  have hf : firstIndex (fun j => decide (o = slot w.self j))
      (MAX_OBSERVABLE_OBSERVERS w.self) 0 = some pre.length :=
    firstIndex_eq_some (Nat.zero_le _) (by simp [MAX_OBSERVABLE_OBSERVERS, hobs])
      (by simpa using (slot_append_mid _ _ _ _ hobs).symm)
      (fun j _ hj => by
        simp only [decide_eq_false_iff_not]
        exact fun h => hpre _ (slot_append_left _ _ _ _ hobs hj) h.symm)
  refine ⟨{ w with
            heap := fun q => if q = o then none else w.heap q
            self := { w.self with observers := w.self.observers.set pre.length NULL } },
    ?_, rfl, ?_, rfl, rfl, rfl, rfl⟩
  · rw [AK_unregister_observer, unregister_loop_eq, hf]
    simp only [slot_append_mid _ _ _ _ hobs, free_live _ _ _ hrec]
  · simp [hobs]

theorem filterMap_of_forall₂ {f : Ptr → Option Call} :
    ∀ {l : List Ptr} {cs : List Call},
      List.Forall₂ (fun p c => f p = some c) l cs → l.filterMap f = cs := by
  intro l cs h
  induction h with
  | nil => rfl
  | cons hpc _ ih => simp [List.filterMap_cons, hpc, ih]

theorem notify_observers_eq (w : World)
    (hlive : ∀ p ∈ w.self.observers, p ≠ NULL →
      ∃ rec, load w.heap p = some rec ∧ rec.AK_observer_type_event_handler ≠ NULL) :
    AK_notify_observers w =
      some (Status.OK,
        { w with calls := w.calls ++ (occupied w.self).filterMap (callOf w) }) := by
  obtain ⟨cs, h1, h2⟩ := notify_loop_spec w.self.observers [] w (by simp) hlive
  have hcs : (occupied w.self).filterMap (callOf w) = cs := filterMap_of_forall₂ h2
  rw [hcs]
  simpa [AK_notify_observers, MAX_OBSERVABLE_OBSERVERS] using h1

theorem get_observer_by_id_no_match (w : World) (id : Int)
    (hno : ∀ p ∈ w.self.observers, p ≠ NULL →
      ∃ rec, load w.heap p = some rec ∧ rec.observer_id ≠ id) :
    AK_get_observer_by_id w id = some (NULL, w) := by
  have hloop := get_observer_by_id_loop_eq w id (MAX_OBSERVABLE_OBSERVERS w.self) 0
    (fun j _ hj hne => (hno _ (slot_mem w.self j (by omega)) hne).imp fun _ h => h.1)
  rw [AK_get_observer_by_id, hloop, firstIndex_of_all_false]
  intro j _ hj
  cases hm : idMatches w id j with
  | false => rfl
  | true =>
    obtain ⟨hne, rec, hrec, hid⟩ := (idMatches_iff w id j).mp hm
    obtain ⟨r, hr, hrid⟩ := hno _ (slot_mem w.self j (by omega)) hne
    rw [hrec] at hr
    rw [Option.some.inj hr] at hid
    exact absurd hid hrid

/-! ## The capacity-two scenario -/

theorem occupied_eq_of_observers (self : AK_observable) (l : List Ptr)
    (h : self.observers = l) : occupied self = l.filter (fun p => decide (p ≠ NULL)) := by
  rw [occupied, h]

/-- Claim C15. On a fresh observable with capacity 2 and kind `AK_CUSTOM_FIRST`,
for distinct live observers `A` and `B` with handlers and any handle `C`:
registering `A` returns `OK` and gives it id 1, registering `B` returns `OK` and
gives it id 2, registering `C` returns `NOT_OK` and changes nothing; notify-all
then calls `A`'s handler and then `B`'s, once each, with the subject context and
kind `AK_CUSTOM_FIRST`; unregistering `A` returns `OK`; a second notify-all
calls only `B`'s handler; and the lookup of id 1 returns `NULL`. -/
theorem capacity_two_scenario (heap : Heap) (t a A B C : Ptr) (rA rB : AK_observer)
    (hA : load heap A = some rA) (hB : load heap B = some rB) (hAB : A ≠ B)
    (hhA : rA.AK_observer_type_event_handler ≠ NULL)
    (hhB : rB.AK_observer_type_event_handler ≠ NULL) :
    ∃ w1 w2 w3 w4 w5 : World,
      AK_register_observer
          (freshWorld heap 2 t AK_ObservableType_Enum.AK_CUSTOM_FIRST a) A =
        some (Status.OK, w1) ∧
      load w1.heap A = some { rA with observer_id := 1 } ∧
      AK_register_observer w1 B = some (Status.OK, w2) ∧
      load w2.heap B = some { rB with observer_id := 2 } ∧
      AK_register_observer w2 C = some (Status.NOT_OK, w2) ∧
      AK_notify_observers w2 = some (Status.OK, w3) ∧
      w3.calls =
        [{ handler := rA.AK_observer_type_event_handler
           observer_type := rA.AK_observer_type
           observable_type := t
           type := AK_ObservableType_Enum.AK_CUSTOM_FIRST },
         { handler := rB.AK_observer_type_event_handler
           observer_type := rB.AK_observer_type
           observable_type := t
           type := AK_ObservableType_Enum.AK_CUSTOM_FIRST }] ∧
      AK_unregister_observer w3 A = some (Status.OK, w4) ∧
      AK_notify_observers w4 = some (Status.OK, w5) ∧
      w5.calls = w3.calls ++
        [{ handler := rB.AK_observer_type_event_handler
           observer_type := rB.AK_observer_type
           observable_type := t
           type := AK_ObservableType_Enum.AK_CUSTOM_FIRST }] ∧
      AK_get_observer_by_id w5 1 = some (NULL, w5) := by
  have hAn : A ≠ NULL := load_ne_null hA
  have hBn : B ≠ NULL := load_ne_null hB
  have hBA : B ≠ A := fun h => hAB h.symm
  -- register A
  obtain ⟨w1, h1, hheap1, hobs1, hcnt1, ht1, hd1, hc1⟩ :=
    register_shape (freshWorld heap 2 t AK_ObservableType_Enum.AK_CUSTOM_FIRST a) A rA
      [] [NULL] rfl (by simp) hA
  have hcnt1' : w1.self.observer_id_counter = 2 := by rw [hcnt1]; rfl
  have hlA1 : load w1.heap A = some { rA with observer_id := 1 } := by
    rw [hheap1]
    exact load_store_same _ _ _ _ hA
  have hlB1 : load w1.heap B = some rB := by
    rw [hheap1, load_store_other _ _ _ _ hBA]
    exact hB
  -- register B
  obtain ⟨w2, h2, hheap2, hobs2, hcnt2, ht2, hd2, hc2⟩ :=
    register_shape w1 B rB [A] [] hobs1 (by simpa using hAn) hlB1
  have hobs2' : w2.self.observers = [A, B] := hobs2
  have hlB2 : load w2.heap B = some { rB with observer_id := 2 } := by
    rw [hheap2, hcnt1']
    exact load_store_same _ _ _ _ hlB1
  have hlA2 : load w2.heap A = some { rA with observer_id := 1 } := by
    rw [hheap2, load_store_other _ _ _ _ hAB]
    exact hlA1
  have htype2 : w2.self.AK_observable_type = t := by rw [ht2, ht1]; rfl
  have hdef2 : w2.self.AK_ObservableType_Def = AK_ObservableType_Enum.AK_CUSTOM_FIRST := by
    rw [hd2, hd1]
    rfl
  have hcalls2 : w2.calls = [] := by rw [hc2, hc1]; rfl
  -- register C
  have h3 : AK_register_observer w2 C = some (Status.NOT_OK, w2) := by
    apply register_full
    intro i hi
    have hm := slot_mem w2.self i hi
    rw [hobs2'] at hm
    simp only [List.mem_cons, List.mem_singleton, List.not_mem_nil, or_false] at hm
    rcases hm with h | h
    · rw [h]; exact hAn
    · rw [h]; exact hBn
  -- notify all
  have hlive2 : ∀ p ∈ w2.self.observers, p ≠ NULL →
      ∃ rec, load w2.heap p = some rec ∧ rec.AK_observer_type_event_handler ≠ NULL := by
    intro p hp _
    rw [hobs2'] at hp
    simp only [List.mem_cons, List.mem_singleton, List.not_mem_nil, or_false] at hp
    rcases hp with h | h
    · rw [h]; exact ⟨_, hlA2, hhA⟩
    · rw [h]; exact ⟨_, hlB2, hhB⟩
  have hn2 := notify_observers_eq w2 hlive2
  have hocc2 : occupied w2.self = [A, B] := by
    rw [occupied_eq_of_observers _ _ hobs2']
    simp [hAn, hBn]
  have hcallA : callOf w2 A =
      some { handler := rA.AK_observer_type_event_handler
             observer_type := rA.AK_observer_type
             observable_type := t
             type := AK_ObservableType_Enum.AK_CUSTOM_FIRST } := by
    simp [callOf, hlA2, htype2, hdef2]
  have hcallB : callOf w2 B =
      some { handler := rB.AK_observer_type_event_handler
             observer_type := rB.AK_observer_type
             observable_type := t
             type := AK_ObservableType_Enum.AK_CUSTOM_FIRST } := by
    simp [callOf, hlB2, htype2, hdef2]
  rw [hocc2, hcalls2] at hn2
  simp only [List.filterMap_cons, hcallA, hcallB, List.filterMap_nil, List.nil_append] at hn2
  obtain ⟨w3, hw3⟩ : ∃ w3 : World, w3 =
      { w2 with
        calls :=
          [{ handler := rA.AK_observer_type_event_handler
             observer_type := rA.AK_observer_type
             observable_type := t
             type := AK_ObservableType_Enum.AK_CUSTOM_FIRST },
           { handler := rB.AK_observer_type_event_handler
             observer_type := rB.AK_observer_type
             observable_type := t
             type := AK_ObservableType_Enum.AK_CUSTOM_FIRST }] } := ⟨_, rfl⟩
  rw [← hw3] at hn2
  have hheap3 : w3.heap = w2.heap := by rw [hw3]
  have hself3 : w3.self = w2.self := by rw [hw3]
  have hcalls3 : w3.calls =
      [{ handler := rA.AK_observer_type_event_handler
         observer_type := rA.AK_observer_type
         observable_type := t
         type := AK_ObservableType_Enum.AK_CUSTOM_FIRST },
       { handler := rB.AK_observer_type_event_handler
         observer_type := rB.AK_observer_type
         observable_type := t
         type := AK_ObservableType_Enum.AK_CUSTOM_FIRST }] := by rw [hw3]
  -- unregister A
  obtain ⟨w4, h4, hheap4, hobs4, _, ht4, hd4, hc4⟩ :=
    unregister_shape w3 A { rA with observer_id := 1 } [] [B]
      (by rw [hself3, hobs2']; rfl) (by simp) (by rw [hheap3]; exact hlA2)
  have hobs4' : w4.self.observers = [NULL, B] := hobs4
  have hlB4 : load w4.heap B = some { rB with observer_id := 2 } := by
    rw [hheap4, hheap3]
    simpa [load, hBn, hBA] using hlB2
  have htype4 : w4.self.AK_observable_type = t := by rw [ht4, hself3]; exact htype2
  have hdef4 : w4.self.AK_ObservableType_Def = AK_ObservableType_Enum.AK_CUSTOM_FIRST := by
    rw [hd4, hself3]
    exact hdef2
  -- second notify all
  have hlive4 : ∀ p ∈ w4.self.observers, p ≠ NULL →
      ∃ rec, load w4.heap p = some rec ∧ rec.AK_observer_type_event_handler ≠ NULL := by
    intro p hp hne
    rw [hobs4'] at hp
    simp only [List.mem_cons, List.mem_singleton, List.not_mem_nil, or_false] at hp
    rcases hp with h | h
    · exact absurd h hne
    · rw [h]; exact ⟨_, hlB4, hhB⟩
  have hn4 := notify_observers_eq w4 hlive4
  have hocc4 : occupied w4.self = [B] := by
    rw [occupied_eq_of_observers _ _ hobs4']
    simp [hBn]
  have hcallB4 : callOf w4 B =
      some { handler := rB.AK_observer_type_event_handler
             observer_type := rB.AK_observer_type
             observable_type := t
             type := AK_ObservableType_Enum.AK_CUSTOM_FIRST } := by
    simp [callOf, hlB4, htype4, hdef4]
  rw [hocc4, hc4] at hn4
  simp only [List.filterMap_cons, hcallB4, List.filterMap_nil] at hn4
  obtain ⟨w5, hw5⟩ : ∃ w5 : World, w5 =
      { w4 with
        calls := w3.calls ++
          [{ handler := rB.AK_observer_type_event_handler
             observer_type := rB.AK_observer_type
             observable_type := t
             type := AK_ObservableType_Enum.AK_CUSTOM_FIRST }] } := ⟨_, rfl⟩
  rw [← hw5] at hn4
  have hheap5 : w5.heap = w4.heap := by rw [hw5]
  have hself5 : w5.self = w4.self := by rw [hw5]
  -- lookup of id 1
  have hget : AK_get_observer_by_id w5 1 = some (NULL, w5) := by
    apply get_observer_by_id_no_match
    intro p hp hne
    rw [hself5, hobs4'] at hp
    simp only [List.mem_cons, List.mem_singleton, List.not_mem_nil, or_false] at hp
    rcases hp with h | h
    · exact absurd h hne
    · rw [h, hheap5]
      exact ⟨_, hlB4, by simp⟩
  exact ⟨w1, w2, w3, w4, w5, h1, hlA1, h2, hlB2, h3, hn2, hcalls3, h4, hn4,
    by rw [hw5], hget⟩

theorem capacity_two_scenario_witness :
    load demoHeap 1 = some { observer_id := 0, AK_observer_type := 101,
                             AK_observer_type_event_handler := 7 } ∧
      load demoHeap 2 = some { observer_id := 0, AK_observer_type := 102,
                               AK_observer_type_event_handler := 7 } ∧
      (1 : Ptr) ≠ 2 ∧ (7 : Ptr) ≠ NULL ∧
      ∃ w1 w2 w3 w4 w5 : World,
        AK_register_observer
            (freshWorld demoHeap 2 50 AK_ObservableType_Enum.AK_CUSTOM_FIRST 60) 1 =
          some (Status.OK, w1) ∧
        load w1.heap 1 = some { observer_id := 1, AK_observer_type := 101,
                                AK_observer_type_event_handler := 7 } ∧
        AK_register_observer w1 2 = some (Status.OK, w2) ∧
        load w2.heap 2 = some { observer_id := 2, AK_observer_type := 102,
                                AK_observer_type_event_handler := 7 } ∧
        AK_register_observer w2 3 = some (Status.NOT_OK, w2) ∧
        AK_notify_observers w2 = some (Status.OK, w3) ∧
        w3.calls =
          [{ handler := 7, observer_type := 101, observable_type := 50
             type := AK_ObservableType_Enum.AK_CUSTOM_FIRST },
           { handler := 7, observer_type := 102, observable_type := 50
             type := AK_ObservableType_Enum.AK_CUSTOM_FIRST }] ∧
        AK_unregister_observer w3 1 = some (Status.OK, w4) ∧
        AK_notify_observers w4 = some (Status.OK, w5) ∧
        w5.calls = w3.calls ++
          [{ handler := 7, observer_type := 102, observable_type := 50
             type := AK_ObservableType_Enum.AK_CUSTOM_FIRST }] ∧
        AK_get_observer_by_id w5 1 = some (NULL, w5) :=
  ⟨rfl, rfl, by decide, by decide,
    capacity_two_scenario demoHeap 50 60 1 2 3
      { observer_id := 0, AK_observer_type := 101, AK_observer_type_event_handler := 7 }
      { observer_id := 0, AK_observer_type := 102, AK_observer_type_event_handler := 7 }
      rfl rfl (by decide) (by decide) (by decide)⟩

/-! ## Notification order after churn -/

theorem load_remove_other (heap : Heap) (o p : Ptr) (h : p ≠ o) :
    load (fun q => if q = o then none else heap q) p = load heap p := by
  simp [load, h]

/-- Claim C16. On a fresh observable with at least two slots and distinct live
observers `A`, `B`, `C`: after register `A`, register `B`, unregister `A`,
register `C` (all four calls return `OK`), `C` sits in slot 0 (the lowest empty
slot) with id 3 and `B` in slot 1 with id 2, and `AK_notify_observers` calls
`C`'s handler first and `B`'s handler second, although `B` was registered
earlier. -/
theorem churn_reorders_notification (heap : Heap) (max : Nat) (t a : Ptr)
    (d : AK_ObservableType_Enum) (A B C : Ptr) (rA rB rC : AK_observer)
    (hA : load heap A = some rA) (hB : load heap B = some rB) (hC : load heap C = some rC)
    (hAB : A ≠ B) (hAC : A ≠ C) (hBC : B ≠ C)
    (hhB : rB.AK_observer_type_event_handler ≠ NULL)
    (hhC : rC.AK_observer_type_event_handler ≠ NULL)
    (hmax : 2 ≤ max) :
    ∃ w1 w2 w3 w4 w5 : World,
      AK_register_observer (freshWorld heap max t d a) A = some (Status.OK, w1) ∧
      AK_register_observer w1 B = some (Status.OK, w2) ∧
      AK_unregister_observer w2 A = some (Status.OK, w3) ∧
      AK_register_observer w3 C = some (Status.OK, w4) ∧
      load w4.heap B = some { rB with observer_id := 2 } ∧
      load w4.heap C = some { rC with observer_id := 3 } ∧
      slot w4.self 0 = C ∧ slot w4.self 1 = B ∧
      occupied w4.self = [C, B] ∧
      AK_notify_observers w4 = some (Status.OK, w5) ∧
      w5.calls =
        [{ handler := rC.AK_observer_type_event_handler
           observer_type := rC.AK_observer_type
           observable_type := t
           type := d },
         { handler := rB.AK_observer_type_event_handler
           observer_type := rB.AK_observer_type
           observable_type := t
           type := d }] := by
  obtain ⟨m, rfl⟩ : ∃ m, max = m + 2 := ⟨max - 2, by omega⟩
  have hAn : A ≠ NULL := load_ne_null hA
  have hBn : B ≠ NULL := load_ne_null hB
  have hCn : C ≠ NULL := load_ne_null hC
  have hBA : B ≠ A := fun h => hAB h.symm
  have hCA : C ≠ A := fun h => hAC h.symm
  have hCB : C ≠ B := fun h => hBC h.symm
  -- register A
  obtain ⟨w1, h1, hheap1, hobs1, hcnt1, ht1, hd1, hc1⟩ :=
    register_shape (freshWorld heap (m + 2) t d a) A rA [] (List.replicate (m + 1) NULL)
      (by simp [freshWorld, AK_init_observable, List.replicate_succ]) (by simp) hA
  have hcnt1' : w1.self.observer_id_counter = 2 := by rw [hcnt1]; rfl
  have hlB1 : load w1.heap B = some rB := by
    rw [hheap1, load_store_other _ _ _ _ hBA]
    exact hB
  have hlC1 : load w1.heap C = some rC := by
    rw [hheap1, load_store_other _ _ _ _ hCA]
    exact hC
  -- register B
  obtain ⟨w2, h2, hheap2, hobs2, hcnt2, ht2, hd2, hc2⟩ :=
    register_shape w1 B rB [A] (List.replicate m NULL)
      (by rw [hobs1]; simp [List.replicate_succ]) (by simpa using hAn) hlB1
  have hcnt2' : w2.self.observer_id_counter = 3 := by rw [hcnt2, hcnt1']; rfl
  have hlA2 : load w2.heap A = some { rA with observer_id := 1 } := by
    rw [hheap2, load_store_other _ _ _ _ hAB, hheap1]
    exact load_store_same _ _ _ _ hA
  have hlB2 : load w2.heap B = some { rB with observer_id := 2 } := by
    rw [hheap2, hcnt1']
    exact load_store_same _ _ _ _ hlB1
  have hlC2 : load w2.heap C = some rC := by
    rw [hheap2, load_store_other _ _ _ _ hCB]
    exact hlC1
  -- unregister A
  obtain ⟨w3, h3, hheap3, hobs3, hcnt3, ht3, hd3, hc3⟩ :=
    unregister_shape w2 A { rA with observer_id := 1 } [] (B :: List.replicate m NULL)
      (by rw [hobs2]; simp) (by simp) hlA2
  have hlB3 : load w3.heap B = some { rB with observer_id := 2 } := by
    rw [hheap3, load_remove_other _ _ _ hBA]
    exact hlB2
  have hlC3 : load w3.heap C = some rC := by
    rw [hheap3, load_remove_other _ _ _ hCA]
    exact hlC2
  -- register C
  obtain ⟨w4, h4, hheap4, hobs4, _, ht4, hd4, hc4⟩ :=
    register_shape w3 C rC [] (B :: List.replicate m NULL) hobs3 (by simp) hlC3
  have hobs4' : w4.self.observers = C :: B :: List.replicate m NULL := hobs4
  have hlB4 : load w4.heap B = some { rB with observer_id := 2 } := by
    rw [hheap4, load_store_other _ _ _ _ hBC]
    exact hlB3
  have hlC4 : load w4.heap C = some { rC with observer_id := 3 } := by
    rw [hheap4, hcnt3, hcnt2']
    exact load_store_same _ _ _ _ hlC3
  have htype4 : w4.self.AK_observable_type = t := by rw [ht4, ht3, ht2, ht1]; rfl
  have hdef4 : w4.self.AK_ObservableType_Def = d := by rw [hd4, hd3, hd2, hd1]; rfl
  have hcalls4 : w4.calls = [] := by rw [hc4, hc3, hc2, hc1]; rfl
  have hs0 : slot w4.self 0 = C := slot_append_mid w4.self [] _ C hobs4'
  have hs1 : slot w4.self 1 = B :=
    slot_append_mid w4.self [C] (List.replicate m NULL) B (by rw [hobs4']; rfl)
  have hocc4 : occupied w4.self = [C, B] := by
    rw [occupied_eq_of_observers _ _ hobs4']
    simp [hCn, hBn]
  -- notify all
  have hlive4 : ∀ p ∈ w4.self.observers, p ≠ NULL →
      ∃ rec, load w4.heap p = some rec ∧ rec.AK_observer_type_event_handler ≠ NULL := by
    intro p hp hne
    rw [hobs4'] at hp
    simp only [List.mem_cons] at hp
    rcases hp with h | h | h
    · rw [h]; exact ⟨_, hlC4, hhC⟩
    · rw [h]; exact ⟨_, hlB4, hhB⟩
    · exact absurd (List.eq_of_mem_replicate h) hne
  have hn4 := notify_observers_eq w4 hlive4
  have hcallC : callOf w4 C =
      some { handler := rC.AK_observer_type_event_handler
             observer_type := rC.AK_observer_type
             observable_type := t
             type := d } := by
    simp [callOf, hlC4, htype4, hdef4]
  have hcallB : callOf w4 B =
      some { handler := rB.AK_observer_type_event_handler
             observer_type := rB.AK_observer_type
             observable_type := t
             type := d } := by
    simp [callOf, hlB4, htype4, hdef4]
  rw [hocc4, hcalls4] at hn4
  simp only [List.filterMap_cons, hcallC, hcallB, List.filterMap_nil, List.nil_append] at hn4
  exact ⟨w1, w2, w3, w4, _, h1, h2, h3, h4, hlB4, hlC4, hs0, hs1, hocc4, hn4, rfl⟩

theorem churn_reorders_notification_witness :
    load demoHeap 1 = some { observer_id := 0, AK_observer_type := 101,
                             AK_observer_type_event_handler := 7 } ∧
      load demoHeap 2 = some { observer_id := 0, AK_observer_type := 102,
                               AK_observer_type_event_handler := 7 } ∧
      load demoHeap 3 = some { observer_id := 0, AK_observer_type := 103,
                               AK_observer_type_event_handler := 7 } ∧
      (1 : Ptr) ≠ 2 ∧ (1 : Ptr) ≠ 3 ∧ (2 : Ptr) ≠ 3 ∧ (7 : Ptr) ≠ NULL ∧ 2 ≤ 2 ∧
      ∃ w1 w2 w3 w4 w5 : World,
        AK_register_observer
            (freshWorld demoHeap 2 50 AK_ObservableType_Enum.AK_CUSTOM_FIRST 60) 1 =
          some (Status.OK, w1) ∧
        AK_register_observer w1 2 = some (Status.OK, w2) ∧
        AK_unregister_observer w2 1 = some (Status.OK, w3) ∧
        AK_register_observer w3 3 = some (Status.OK, w4) ∧
        load w4.heap 2 = some { observer_id := 2, AK_observer_type := 102,
                                AK_observer_type_event_handler := 7 } ∧
        load w4.heap 3 = some { observer_id := 3, AK_observer_type := 103,
                                AK_observer_type_event_handler := 7 } ∧
        slot w4.self 0 = 3 ∧ slot w4.self 1 = 2 ∧
        occupied w4.self = [3, 2] ∧
        AK_notify_observers w4 = some (Status.OK, w5) ∧
        w5.calls =
          [{ handler := 7, observer_type := 103, observable_type := 50
             type := AK_ObservableType_Enum.AK_CUSTOM_FIRST },
           { handler := 7, observer_type := 102, observable_type := 50
             type := AK_ObservableType_Enum.AK_CUSTOM_FIRST }] :=
  ⟨rfl, rfl, rfl, by decide, by decide, by decide, by decide, by decide,
    churn_reorders_notification demoHeap 2 50 60 AK_ObservableType_Enum.AK_CUSTOM_FIRST 1 2 3
      { observer_id := 0, AK_observer_type := 101, AK_observer_type_event_handler := 7 }
      { observer_id := 0, AK_observer_type := 102, AK_observer_type_event_handler := 7 }
      { observer_id := 0, AK_observer_type := 103, AK_observer_type_event_handler := 7 }
      rfl rfl rfl (by decide) (by decide) (by decide) (by decide) (by decide) (by decide)⟩

/-! ## Registering an observer that is already registered -/

theorem first_empty_slot (self : AK_observable)
    (hempty : ∃ i, i < MAX_OBSERVABLE_OBSERVERS self ∧ slot self i = NULL) :
    ∃ k, k < MAX_OBSERVABLE_OBSERVERS self ∧ slot self k = NULL ∧
      ∀ j, j < k → slot self j ≠ NULL := by
  obtain ⟨i, hi, hs⟩ := hempty
  obtain ⟨k, hk⟩ := firstIndex_of_exists (p := fun j => decide (slot self j = NULL))
    (n := MAX_OBSERVABLE_OBSERVERS self) (Nat.zero_le i) (by omega) (by simpa using hs)
  obtain ⟨_, hk2, hk3, hk4⟩ := firstIndex_some hk
  exact ⟨k, by omega, by simpa using hk3, fun j hj => by simpa using hk4 j (Nat.zero_le j) hj⟩

theorem mem_slot (self : AK_observable) (p : Ptr) (h : p ∈ self.observers) :
    ∃ j, j < MAX_OBSERVABLE_OBSERVERS self ∧ slot self j = p := by
  obtain ⟨j, hj, hget⟩ := List.getElem_of_mem h
  exact ⟨j, hj, by rw [slot, List.getD_eq_getElem _ _ hj, hget]⟩

theorem count_occupied_set (o : Ptr) (ho : o ≠ NULL) :
    ∀ (l : List Ptr) (k : Nat), k < l.length → l.getD k NULL = NULL →
      ((l.set k o).filter (fun p => decide (p ≠ NULL))).count o =
        (l.filter (fun p => decide (p ≠ NULL))).count o + 1 := by
  intro l
  induction l with
  | nil => intro k hk _; simp at hk
  | cons x l ih =>
    intro k hk hget
    cases k with
    | zero =>
      have hx : x = NULL := by simpa using hget
      subst hx
      simp [ho]
    | succ k =>
      have hk' : k < l.length := by simpa using hk
      have hget' : l.getD k NULL = NULL := by simpa using hget
      have := ih k hk' hget'
      by_cases hx : x = NULL
      · simpa [hx] using this
      · simp only [List.set_cons_succ, ne_eq, hx, not_false_eq_true, decide_True,
          List.filter_cons_of_pos, List.count_cons, this]
        omega

theorem count_le_of_forall₂ {f : Ptr → Option Call} (o : Ptr) (c : Call)
    (hoc : f o = some c) :
    ∀ {l : List Ptr} {cs : List Call},
      List.Forall₂ (fun p c' => f p = some c') l cs → l.count o ≤ cs.count c := by
  intro l cs h
  induction h with
  | nil => simp
  | @cons p c' l cs hpc _ ih =>
    simp only [List.count_cons]
    by_cases hp : p = o
    · subst hp
      have hc : c' = c := by
        rw [hoc] at hpc
        exact (Option.some.inj hpc).symm
      subst hc
      simp
      exact ih
    · have : (p == o) = false := by simpa using hp
      rw [this]
      simp only [Bool.false_eq_true, if_false, add_zero]
      exact le_trans ih (Nat.le_add_right _ _)

/-- Claim C18. In every reachable state whose stored observers are live and
have a handler, registering a live observer `o` that already is in a slot, while
some slot is empty, returns `OK`: `o` is written to the lowest empty slot too
(one more occupied slot holds `o`, at least two in all), its `observer_id` is
overwritten with the counter value before the call, which differs from its old
id; the lookup of the old id returns `NULL`; and `AK_notify_observers` makes one
call per occupied slot, so at least two calls of `o`'s handler on `o`'s
context. -/
theorem register_again_duplicates (w : World) (o : Ptr) (rec : AK_observer)
    (hreach : Reachable w)
    (hlive : ∀ p ∈ w.self.observers, p ≠ NULL →
      ∃ r, load w.heap p = some r ∧ r.AK_observer_type_event_handler ≠ NULL)
    (hrec : load w.heap o = some rec)
    (hstored : ∃ i, i < MAX_OBSERVABLE_OBSERVERS w.self ∧ slot w.self i = o)
    (hempty : ∃ i, i < MAX_OBSERVABLE_OBSERVERS w.self ∧ slot w.self i = NULL) :
    ∃ (k : Nat) (w' w'' : World) (cs : List Call),
      AK_register_observer w o = some (Status.OK, w') ∧
      k < MAX_OBSERVABLE_OBSERVERS w.self ∧
      slot w.self k = NULL ∧
      slot w'.self k = o ∧
      (∀ j, j ≠ k → slot w'.self j = slot w.self j) ∧
      (occupied w'.self).count o = (occupied w.self).count o + 1 ∧
      2 ≤ (occupied w'.self).count o ∧
      load w'.heap o = some { rec with observer_id := w.self.observer_id_counter } ∧
      rec.observer_id ≠ w.self.observer_id_counter ∧
      AK_get_observer_by_id w' rec.observer_id = some (NULL, w') ∧
      AK_notify_observers w' = some (Status.OK, w'') ∧
      w''.calls = w'.calls ++ cs ∧
      List.Forall₂ (fun p c => callOf w' p = some c) (occupied w'.self) cs ∧
      2 ≤ cs.count
        { handler := rec.AK_observer_type_event_handler
          observer_type := rec.AK_observer_type
          observable_type := w.self.AK_observable_type
          type := w.self.AK_ObservableType_Def } := by
  have hinv := idInv_of_reachable w hreach
  have hone : o ≠ NULL := load_ne_null hrec
  obtain ⟨i, hi, hsi⟩ := hstored
  obtain ⟨k, hk, hsk, hfirst⟩ := first_empty_slot w.self hempty
  have hklt : k < w.self.observers.length := hk
  have hreg := register_at w o rec k hrec hk hsk hfirst
  obtain ⟨w', hw'⟩ : ∃ w' : World, w' =
      { w with
        heap := store w.heap o { rec with observer_id := w.self.observer_id_counter }
        self :=
          { w.self with
            observer_id_counter := w.self.observer_id_counter + 1
            observers := w.self.observers.set k o } } := ⟨_, rfl⟩
  rw [← hw'] at hreg
  have hobs' : w'.self.observers = w.self.observers.set k o := by rw [hw']
  have hheap' : w'.heap =
      store w.heap o { rec with observer_id := w.self.observer_id_counter } := by rw [hw']
  have htype' : w'.self.AK_observable_type = w.self.AK_observable_type := by rw [hw']
  have hdef' : w'.self.AK_ObservableType_Def = w.self.AK_ObservableType_Def := by rw [hw']
  have hslot : ∀ j, slot w'.self j = if j = k then o else slot w.self j := by
    intro j
    rw [slot_set w.self w'.self k o hobs' j]
    simp [hklt]
  have hloado : load w'.heap o =
      some { rec with observer_id := w.self.observer_id_counter } := by
    rw [hheap']
    exact load_store_same _ _ _ _ hrec
  -- the old id is below the counter
  have hrange := hinv.id_range i rec hi (by rw [hsi]; exact hrec)
  have hold : rec.observer_id ≠ w.self.observer_id_counter := by omega
  -- one more occupied slot holds the observer
  have hcount : (occupied w'.self).count o = (occupied w.self).count o + 1 := by
    rw [occupied, occupied, hobs']
    exact count_occupied_set o hone _ k hklt hsk
  have hcount1 : 1 ≤ (occupied w.self).count o := by
    apply List.count_pos_iff.mpr
    rw [occupied, List.mem_filter]
    refine ⟨?_, by simpa using hone⟩
    rw [← hsi]
    exact slot_mem w.self i hi
  -- every stored observer of the new state is live
  have hmem' : ∀ p ∈ w'.self.observers, p ≠ NULL → p ≠ o →
      p ∈ w.self.observers ∧ load w'.heap p = load w.heap p := by
    intro p hp _ hpo
    rw [hobs'] at hp
    rcases List.mem_or_eq_of_mem_set hp with h | h
    · exact ⟨h, by rw [hheap', load_store_other _ _ _ _ hpo]⟩
    · exact absurd h hpo
  have hrec_handler : rec.AK_observer_type_event_handler ≠ NULL := by
    obtain ⟨r, hr, hh⟩ := hlive o (by rw [← hsi]; exact slot_mem w.self i hi) hone
    rw [hrec] at hr
    rw [Option.some.inj hr]
    exact hh
  have hlive' : ∀ p ∈ w'.self.observers, p ≠ NULL →
      ∃ r, load w'.heap p = some r ∧ r.AK_observer_type_event_handler ≠ NULL := by
    intro p hp hne
    by_cases hpo : p = o
    · rw [hpo]
      exact ⟨_, hloado, hrec_handler⟩
    · obtain ⟨hmem, hl⟩ := hmem' p hp hne hpo
      rw [hl]
      exact hlive p hmem hne
  -- the old id no longer resolves
  have hget : AK_get_observer_by_id w' rec.observer_id = some (NULL, w') := by
    apply get_observer_by_id_no_match
    intro p hp hne
    by_cases hpo : p = o
    · rw [hpo]
      exact ⟨_, hloado, fun h => hold h.symm⟩
    · obtain ⟨hmem, hl⟩ := hmem' p hp hne hpo
      obtain ⟨r, hr, _⟩ := hlive p hmem hne
      refine ⟨r, by rw [hl]; exact hr, ?_⟩
      intro hid
      obtain ⟨j, hj, hsj⟩ := mem_slot w.self p hmem
      have := hinv.id_inj j i r rec hj hi (by rw [hsj]; exact hr) (by rw [hsi]; exact hrec) hid
      rw [hsj, hsi] at this
      exact hpo this
  -- notify all
  obtain ⟨cs, hn, hall⟩ := notify_loop_spec w'.self.observers [] w' (by simp) hlive'
  have hcallo : callOf w' o =
      some { handler := rec.AK_observer_type_event_handler
             observer_type := rec.AK_observer_type
             observable_type := w.self.AK_observable_type
             type := w.self.AK_ObservableType_Def } := by
    simp [callOf, hloado, htype', hdef']
  have hcs := count_le_of_forall₂ o _ hcallo hall
  refine ⟨k, w', { w' with calls := w'.calls ++ cs }, cs, hreg, hk, hsk, ?_, ?_, hcount,
    by omega, hloado, hold, hget, ?_, rfl, hall, ?_⟩
  · rw [hslot k, if_pos rfl]
  · intro j hj
    rw [hslot j, if_neg hj]
  · simpa [AK_notify_observers, MAX_OBSERVABLE_OBSERVERS] using hn
  · have h2 : 2 ≤ (occupied w'.self).count o := by omega
    exact le_trans h2 hcs

theorem register_again_duplicates_witness :
    ∃ w0 : World,
      AK_register_observer demoWorld 1 = some (Status.OK, w0) ∧
      Reachable w0 ∧
      (∀ p ∈ w0.self.observers, p ≠ NULL →
        ∃ r, load w0.heap p = some r ∧ r.AK_observer_type_event_handler ≠ NULL) ∧
      load w0.heap 1 = some { observer_id := 1, AK_observer_type := 101,
                              AK_observer_type_event_handler := 7 } ∧
      (∃ i, i < MAX_OBSERVABLE_OBSERVERS w0.self ∧ slot w0.self i = 1) ∧
      (∃ i, i < MAX_OBSERVABLE_OBSERVERS w0.self ∧ slot w0.self i = NULL) ∧
      ∃ (k : Nat) (w' w'' : World) (cs : List Call),
        AK_register_observer w0 1 = some (Status.OK, w') ∧
        k < MAX_OBSERVABLE_OBSERVERS w0.self ∧
        slot w0.self k = NULL ∧
        slot w'.self k = 1 ∧
        (∀ j, j ≠ k → slot w'.self j = slot w0.self j) ∧
        (occupied w'.self).count 1 = (occupied w0.self).count 1 + 1 ∧
        2 ≤ (occupied w'.self).count 1 ∧
        load w'.heap 1 =
          some { observer_id := w0.self.observer_id_counter, AK_observer_type := 101,
                 AK_observer_type_event_handler := 7 } ∧
        (1 : Int) ≠ w0.self.observer_id_counter ∧
        AK_get_observer_by_id w' 1 = some (NULL, w') ∧
        AK_notify_observers w' = some (Status.OK, w'') ∧
        w''.calls = w'.calls ++ cs ∧
        List.Forall₂ (fun p c => callOf w' p = some c) (occupied w'.self) cs ∧
        2 ≤ cs.count
          { handler := 7
            observer_type := 101
            observable_type := w0.self.AK_observable_type
            type := w0.self.AK_ObservableType_Def } := by
  have hstep : ∃ w0 : World,
      AK_register_observer demoWorld 1 = some (Status.OK, w0) ∧
      w0.self.observers = [1, NULL] ∧
      load w0.heap 1 = some { observer_id := 1, AK_observer_type := 101,
                              AK_observer_type_event_handler := 7 } ∧
      (∃ i, i < MAX_OBSERVABLE_OBSERVERS w0.self ∧ slot w0.self i = 1) ∧
      (∃ i, i < MAX_OBSERVABLE_OBSERVERS w0.self ∧ slot w0.self i = NULL) :=
    ⟨_, rfl, rfl, rfl, ⟨0, by decide, rfl⟩, ⟨1, by decide, rfl⟩⟩
  obtain ⟨w0, h0, hobs, hl, hstored, hempty⟩ := hstep
  have hreach : Reachable w0 :=
    Reachable.register demoWorld 1 _ w0 (Reachable.init demoHeap 2 50 _ 60) h0
  have hlive : ∀ p ∈ w0.self.observers, p ≠ NULL →
      ∃ r, load w0.heap p = some r ∧ r.AK_observer_type_event_handler ≠ NULL := by
    intro p hp hne
    rw [hobs] at hp
    simp only [List.mem_cons, List.mem_singleton, List.not_mem_nil, or_false] at hp
    rcases hp with h | h
    · rw [h]
      exact ⟨_, hl, by decide⟩
    · exact absurd h hne
  exact ⟨w0, h0, hreach, hlive, hl, hstored, hempty,
    register_again_duplicates w0 1 _ hreach hlive hl hstored hempty⟩

end Observable
